import Mathlib

/-! TestForWork: rate acquisition and persistence pipeline

A shallow embedding of the Go packages `internal/client` (the Grinex depth
client), `internal/service` (the rates service), `internal/api/grpc` (the
gRPC handler), `internal/storage/postgres` (the repository) and
`internal/config` (the connection string) together with the small part of
the Go standard library, of gRPC and of PostgreSQL they rely on (`error`
values built by `fmt.Errorf`, `time.Time`, `context.Context`, the query
parsing of `net/url`, `database/sql`, status errors, protobuf timestamps, the
SQL queries of the repository as PostgreSQL reads and executes them).

Effects are made explicit by state passing.  A call through an interface is
recorded in a trace before the collaborator's own behaviour runs on the
collaborator state, so that statements such as "`SaveRate` is called exactly
once" become statements about the trace.
-/

namespace TestForWork

/-! ## Go runtime values -/

/-- Go `error` values that are not nil.  `leaf` is an error without a cause
(`errors.New`, `fmt.Errorf` without `%w`); `wrap` is an error built by
`fmt.Errorf` with a `%w` verb, which remembers the error it wraps. -/
inductive GoError where
  | leaf (msg : String)
  | wrap (msg : String) (inner : GoError)
  deriving DecidableEq, Repr

namespace GoError

/-- The `Error()` method: the message of the error. -/
def Error : GoError → String
  | leaf msg => msg
  | wrap msg _ => msg

/-- The `Unwrap()` method as seen through `errors.Unwrap`. -/
def Unwrap : GoError → Option GoError
  | leaf _ => none
  | wrap _ inner => some inner

end GoError

namespace fmt

/-- The call `fmt.Errorf(p + "%w", err)`: the message is `p` followed by
the message of `err`, and the result unwraps to `err`. -/
def Errorf_w (p : String) (err : GoError) : GoError :=
  GoError.wrap (p ++ err.Error) err

/-- The call `fmt.Errorf(p + "%d", n)`. -/
def Errorf_d (p : String) (n : Int) : GoError :=
  GoError.leaf (p ++ toString n)

end fmt

namespace time

/-- A `time.Duration`: a number of nanoseconds. -/
abbrev Duration := Int

/-- The constant `time.Second`. -/
def Second : Duration := 1000000000

/-- A `time.Time` as an instant: whole seconds since the Unix epoch and the
nanoseconds within that second. -/
structure Time where
  sec : Int
  nsec : Nat
  deriving DecidableEq, Repr

/-- The function `time.Unix(sec, nsec)` for an `nsec` already in `[0, 1e9)`;
the client only calls it with `nsec = 0`. -/
def Unix (sec : Int) (nsec : Nat) : Time := ⟨sec, nsec⟩

/-- The method `UnixNano`: nanoseconds since the Unix epoch. -/
def Time.UnixNano (t : Time) : Int := t.sec * 1000000000 + t.nsec

/-- The method `Add`: the instant `d` nanoseconds after `t`. -/
def Time.Add (t : Time) (d : Duration) : Time :=
  ⟨(t.UnixNano + d) / 1000000000, ((t.UnixNano + d) % 1000000000).toNat⟩

/-- The method `Before`. -/
def Time.Before (t u : Time) : Bool := decide (t.UnixNano < u.UnixNano)

/-- A calendar reading of an instant in UTC. -/
structure Civil where
  year : Int
  month : Int
  day : Int
  hour : Int
  minute : Int
  second : Int
  deriving DecidableEq, Repr

/-- The UTC calendar date and clock of an instant (what `t.UTC()` prints in
RFC 3339), by the usual era arithmetic of the proleptic Gregorian calendar. -/
def Time.UTC (t : Time) : Civil :=
  let days := t.sec / 86400
  let rem := t.sec % 86400
  let z := days + 719468
  let era := z / 146097
  let doe := z % 146097
  let yoe := (doe - doe / 1460 + doe / 36524 - doe / 146096) / 365
  let doy := doe - (365 * yoe + yoe / 4 - yoe / 100)
  let mp := (5 * doy + 2) / 153
  let d := doy - (153 * mp + 2) / 5 + 1
  let m := if mp < 10 then mp + 3 else mp - 9
  let y := yoe + era * 400 + (if m ≤ 2 then 1 else 0)
  ⟨y, m, d, rem / 3600, rem % 3600 / 60, rem % 60⟩

end time

namespace context

/-- A `context.Context`, reduced to what the code under study can observe
or set: the deadline, if any. -/
structure Context where
  deadline : Option time.Time
  deriving DecidableEq, Repr

/-- The context `context.Background()`: no deadline. -/
def Background : Context := ⟨none⟩

/-- The function `context.WithDeadline(parent, d)`: when the parent already
has an earlier deadline the parent's deadline stays, otherwise the deadline
is `d`. -/
def WithDeadline (parent : Context) (d : time.Time) : Context :=
  match parent.deadline with
  | some cur => if cur.Before d then parent else ⟨some d⟩
  | none => ⟨some d⟩

/-- The function `context.WithTimeout(parent, timeout)`, given the reading
`now` of the clock it takes: `WithDeadline(parent, now.Add(timeout))`. -/
def WithTimeout (parent : Context) (timeout : time.Duration) (now : time.Time) : Context :=
  WithDeadline parent (now.Add timeout)

end context

/-! ## Logging -/

/-- Severity of a `zap` log entry. -/
inductive Level where
  | debug
  | info
  | warn
  | error
  deriving DecidableEq, Repr

/-- A log entry: its level and its message (structured fields are left out). -/
structure LogEntry where
  level : Level
  msg : String
  deriving DecidableEq, Repr

/-- Append an entry to a log. -/
def logTo (logs : List LogEntry) (level : Level) (msg : String) : List LogEntry :=
  logs ++ [⟨level, msg⟩]

/-! ## The part of `net/url` that decides what the server reads from a URL -/

namespace url

/-- The first result of `strings.Cut(s, sep)`: the text before the first
`sep`, or all of `s` when there is none. -/
def cutBefore (sep : Char) (s : List Char) : List Char :=
  s.takeWhile (fun c => c != sep)

/-- The second result of `strings.Cut(s, sep)`: the text after the first
`sep`, or the empty text when there is none. -/
def cutAfter (sep : Char) (s : List Char) : List Char :=
  (s.dropWhile (fun c => c != sep)).tail

/-- A parsed `url.URL`, reduced to three parts: what precedes the query
(scheme, authority and path, which Go splits further), the `RawQuery` and the
`Fragment`. -/
structure URL where
  Location : List Char
  RawQuery : List Char
  Fragment : List Char
  deriving DecidableEq, Repr

/-- The split `url.Parse` makes of a raw URL: the fragment is what follows the
first `#`; of the rest, the query is what follows the first `?`. -/
def split (rawURL : String) : URL :=
  ⟨cutBefore '?' (cutBefore '#' rawURL.data), cutAfter '?' (cutBefore '#' rawURL.data),
    cutAfter '#' rawURL.data⟩

end url

/-! ## The part of `net/http` the client uses -/

namespace http

/-- The constant `http.StatusOK`. -/
def StatusOK : Int := 200

/-- The constant `http.MethodGet`. -/
def MethodGet : String := "GET"

/-- An `http.Client`: only its timeout is configured here. -/
structure Client where
  Timeout : time.Duration
  deriving DecidableEq, Repr

/-- An outgoing `http.Request` with no body: method, parsed URL, header and
the context it carries. -/
structure Request where
  Method : String
  URL : url.URL
  Header : List (String × String)
  ctx : context.Context
  deriving DecidableEq, Repr

/-- An `http.Response`: status code, status line and the bytes of the body. -/
structure Response where
  StatusCode : Int
  Status : String
  Body : String
  deriving DecidableEq, Repr

/-- The method `Header.Set`: the key's previous values are replaced. -/
def Request.HeaderSet (req : Request) (key value : String) : Request :=
  { req with Header := req.Header.filter (fun kv => kv.1 ≠ key) ++ [(key, value)] }

/-- The function `http.NewRequestWithContext(ctx, method, url, http.NoBody)`
for a valid method and a non-nil context: it fails exactly when the URL does
not parse, returning the parse error itself, and otherwise the request holds
the parsed URL.  `parse` is the error result of `url.Parse`. -/
def NewRequestWithContext (parse : String → Option GoError) (ctx : context.Context)
    (method rawURL : String) : Except GoError Request :=
  match parse rawURL with
  | some err => .error err
  | none => .ok ⟨method, url.split rawURL, [], ctx⟩

end http

/-! ## Package `internal/client` -/

namespace client

/-- OrderBook represents a single order in the order book. -/
structure OrderBook where
  Price : String
  Volume : String
  Amount : String
  Factor : String
  Type_ : String
  deriving DecidableEq, Repr, Inhabited

/-- DepthResponse represents the response from the depth API.  `Timestamp`
is an `int64`; a field missing from the JSON body decodes to the zero value
(`0`, respectively the empty list). -/
structure DepthResponse where
  Timestamp : Int
  Asks : List OrderBook
  Bids : List OrderBook
  deriving DecidableEq, Repr

/-- RateData represents exchange rate information. -/
structure RateData where
  Ask : String
  Bid : String
  Timestamp : time.Time
  Market : String
  deriving DecidableEq, Repr

/-- GrinexClient represents the Grinex API client (its logger lives in the
world). -/
structure GrinexClient where
  httpClient : http.Client
  baseURL : String
  market : String
  deriving DecidableEq, Repr

/-- NewGrinexClient creates a new Grinex API client. -/
def NewGrinexClient (baseURL market : String) (timeout : time.Duration) : GrinexClient :=
  ⟨⟨timeout⟩, baseURL, market⟩

/-- The library and environment behaviour the client runs against, over an
environment state `τ`: URL parsing, the HTTP round trip `httpClient.Do`,
JSON decoding of a body into a `DepthResponse`, and the wall clock. -/
structure Runtime (τ : Type) where
  ParseURL : String → Option GoError
  Do : http.Client → http.Request → τ → Except GoError http.Response × τ
  Decode : String → Except GoError DepthResponse
  Now : τ → time.Time × τ

/-- What a run of the client can observe and change: the requests handed to
`httpClient.Do` so far, the log, and the environment state. -/
structure World (τ : Type) where
  requests : List http.Request
  logs : List LogEntry
  net : τ

/-- Write a log entry. -/
def World.log {τ : Type} (w : World τ) (level : Level) (msg : String) : World τ :=
  { w with logs := logTo w.logs level msg }

/-- GetRates retrieves exchange rates from Grinex API.  The result is the Go
pair `(*RateData, error)`, `none` standing for nil. -/
def GrinexClient.GetRates {τ : Type} (rt : Runtime τ) (c : GrinexClient)
    (ctx : context.Context) (market : String) (w : World τ) :
    (Option RateData × Option GoError) × World τ :=
  let url := c.baseURL ++ "/api/v2/depth?market=" ++ market
  let w := w.log Level.debug "Making request to Grinex API"
  match http.NewRequestWithContext rt.ParseURL ctx http.MethodGet url with
  | .error err =>
    let w := w.log Level.error "Failed to create request"
    ((none, some (fmt.Errorf_w "failed to create request: " err)), w)
  | .ok req =>
    let req := req.HeaderSet "Accept" "application/json"
    let sent := rt.Do c.httpClient req w.net
    let w := { w with requests := w.requests ++ [req], net := sent.2 }
    match sent.1 with
    | .error err =>
      let w := w.log Level.error "Failed to make request"
      ((none, some (fmt.Errorf_w "failed to make request: " err)), w)
    | .ok resp =>
      if resp.StatusCode ≠ http.StatusOK then
        let w := w.log Level.error "Unexpected status code"
        ((none, some (fmt.Errorf_d "unexpected status code: " resp.StatusCode)), w)
      else
        match rt.Decode resp.Body with
        | .error err =>
          let w := w.log Level.error "Failed to decode response"
          ((none, some (fmt.Errorf_w "failed to decode response: " err)), w)
        | .ok depthResp =>
          let w := if depthResp.Asks.length = 0 ∧ depthResp.Bids.length = 0
            then w.log Level.warn "Empty asks and bids in response" else w
          let ask := if 0 < depthResp.Asks.length ∧ (depthResp.Asks.headD default).Price ≠ ""
            then (depthResp.Asks.headD default).Price else "N/A"
          let bid := if 0 < depthResp.Bids.length ∧ (depthResp.Bids.headD default).Price ≠ ""
            then (depthResp.Bids.headD default).Price else "N/A"
          let clock := rt.Now w.net
          let w := { w with net := clock.2 }
          let timestamp := if 0 < depthResp.Timestamp
            then time.Unix (Int.tdiv depthResp.Timestamp 1000) 0 else clock.1
          let rateData : RateData := ⟨ask, bid, timestamp, market⟩
          let w := w.log Level.info "Successfully retrieved rates"
          ((some rateData, none), w)

/-- The request `GetRates` hands to `httpClient.Do`: a GET of the depth URL
with the single header `Accept: application/json`, carrying the caller's
context. -/
def GrinexClient.depthRequest (c : GrinexClient) (ctx : context.Context)
    (market : String) : http.Request :=
  ⟨"GET", url.split (c.baseURL ++ "/api/v2/depth?market=" ++ market),
    [("Accept", "application/json")], ctx⟩

/-- The fetch of `GetRates` from world `w` goes through: the URL parses, the
round trip yields the response `resp`, its status is 200 and its body
decodes to the depth response `d`. -/
def Fetches {τ : Type} (rt : Runtime τ) (c : GrinexClient) (ctx : context.Context)
    (market : String) (w : World τ) (resp : http.Response) (d : DepthResponse) : Prop :=
  rt.ParseURL (c.baseURL ++ "/api/v2/depth?market=" ++ market) = none ∧
  (rt.Do c.httpClient (c.depthRequest ctx market) w.net).1 = Except.ok resp ∧
  resp.StatusCode = 200 ∧
  rt.Decode resp.Body = Except.ok d

end client

/-! ## Package `internal/storage/postgres`: the row type -/

namespace postgres

/-- Rate represents a rate record in the database. -/
structure Rate where
  ID : Int
  Market : String
  Ask : String
  Bid : String
  Timestamp : time.Time
  CreatedAt : time.Time
  deriving DecidableEq, Repr

end postgres

/-! ## Package `internal/service` -/

namespace service

/-- GrinexClient interface for Grinex API client: an implementation is any
behaviour over a collaborator state `σ`, returning the Go pair
`(*client.RateData, error)`. -/
structure GrinexClient (σ : Type) where
  GetRates : context.Context → String → σ →
    (Option client.RateData × Option GoError) × σ

/-- Repository interface for data storage.  A `[]postgres.Rate` is a list,
the nil slice being the empty list. -/
structure Repository (σ : Type) where
  SaveRate : context.Context → String → String → String → time.Time → σ →
    Option GoError × σ
  GetRates : context.Context → String → Int → Int → σ →
    (List postgres.Rate × Option GoError) × σ
  GetLatestRate : context.Context → String → σ →
    (Option postgres.Rate × Option GoError) × σ
  Ping : context.Context → σ → Option GoError × σ

/-- A call made by the service through one of its two interfaces, with the
arguments it passed. -/
inductive Call where
  | GrinexGetRates (ctx : context.Context) (market : String)
  | SaveRate (ctx : context.Context) (market ask bid : String) (timestamp : time.Time)
  | RepoGetRates (ctx : context.Context) (market : String) (limit offset : Int)
  | RepoGetLatestRate (ctx : context.Context) (market : String)
  | Ping (ctx : context.Context)
  deriving DecidableEq, Repr

/-- Whether a call is a call of `Repository.SaveRate`. -/
def Call.isSaveRate : Call → Bool
  | Call.SaveRate _ _ _ _ _ => true
  | _ => false

/-- RatesService handles business logic for exchange rates.  `Now` is the
wall clock read by `context.WithTimeout`. -/
structure RatesService (σ : Type) where
  grinexClient : GrinexClient σ
  repository : Repository σ
  Now : σ → time.Time × σ

/-- NewRatesService creates a new rates service. -/
def NewRatesService {σ : Type} (grinexClient : GrinexClient σ) (repository : Repository σ)
    (now : σ → time.Time × σ) : RatesService σ :=
  ⟨grinexClient, repository, now⟩

/-- What a run of the service can observe and change: the calls it made
through its interfaces (oldest first), its log, and the state of the
collaborators. -/
structure World (σ : Type) where
  calls : List Call
  logs : List LogEntry
  ext : σ

/-- Write a log entry. -/
def World.log {σ : Type} (w : World σ) (level : Level) (msg : String) : World σ :=
  { w with logs := logTo w.logs level msg }

/-- Record a call and install the collaborator state it left behind. -/
def World.called {σ : Type} (w : World σ) (c : Call) (ext : σ) : World σ :=
  { w with calls := w.calls ++ [c], ext := ext }

/-- How a Go function ends: it returns a value, or it panics (here only by
dereferencing a nil pointer). -/
inductive Outcome (α : Type) where
  | returned (v : α)
  | panicked
  deriving DecidableEq, Repr

/-- GetRates retrieves exchange rates and saves them to the database. -/
def RatesService.GetRates {σ : Type} (s : RatesService σ) (ctx : context.Context)
    (market : String) (w : World σ) :
    Outcome (Option client.RateData × Option GoError) × World σ :=
  let w := w.log Level.info "Getting rates for market"
  let got := s.grinexClient.GetRates ctx market w.ext
  let w := w.called (Call.GrinexGetRates ctx market) got.2
  match got.1 with
  | (_, some err) =>
    let w := w.log Level.error "Failed to get rates from Grinex"
    (Outcome.returned (none, some (fmt.Errorf_w "failed to get rates from Grinex: " err)), w)
  | (none, none) => (Outcome.panicked, w)
  | (some rateData, none) =>
    let saved := s.repository.SaveRate ctx rateData.Market rateData.Ask rateData.Bid
      rateData.Timestamp w.ext
    let w := w.called
      (Call.SaveRate ctx rateData.Market rateData.Ask rateData.Bid rateData.Timestamp) saved.2
    let w := match saved.1 with
      | some _ => w.log Level.error "Failed to save rate to database"
      | none => w
    let w := w.log Level.info "Successfully retrieved and saved rates"
    (Outcome.returned (some rateData, none), w)

/-- GetLatestRate retrieves the latest rate from the database. -/
def RatesService.GetLatestRate {σ : Type} (s : RatesService σ) (ctx : context.Context)
    (market : String) (w : World σ) :
    (Option postgres.Rate × Option GoError) × World σ :=
  let w := w.log Level.debug "Getting latest rate from database"
  let got := s.repository.GetLatestRate ctx market w.ext
  let w := w.called (Call.RepoGetLatestRate ctx market) got.2
  match got.1.2 with
  | some err =>
    let w := w.log Level.error "Failed to get latest rate from database"
    ((none, some (fmt.Errorf_w "failed to get latest rate: " err)), w)
  | none => ((got.1.1, none), w)

/-- GetRatesHistory retrieves historical rates from the database. -/
def RatesService.GetRatesHistory {σ : Type} (s : RatesService σ) (ctx : context.Context)
    (market : String) (limit offset : Int) (w : World σ) :
    (List postgres.Rate × Option GoError) × World σ :=
  let w := w.log Level.debug "Getting rates history from database"
  let got := s.repository.GetRates ctx market limit offset w.ext
  let w := w.called (Call.RepoGetRates ctx market limit offset) got.2
  match got.1.2 with
  | some err =>
    let w := w.log Level.error "Failed to get rates history from database"
    (([], some (fmt.Errorf_w "failed to get rates history: " err)), w)
  | none => ((got.1.1, none), w)

/-- HealthCheck checks the health of the service.  The result is the Go
`error`, `none` standing for nil. -/
def RatesService.HealthCheck {σ : Type} (s : RatesService σ) (ctx : context.Context)
    (w : World σ) : Option GoError × World σ :=
  let w := w.log Level.debug "Performing health check"
  let pinged := s.repository.Ping ctx w.ext
  let w := w.called (Call.Ping ctx) pinged.2
  match pinged.1 with
  | some err =>
    let w := w.log Level.error "Database health check failed"
    (some (fmt.Errorf_w "database health check failed: " err), w)
  | none =>
    let clock := s.Now w.ext
    let w := { w with ext := clock.2 }
    let ctx5 := context.WithTimeout ctx (5 * time.Second) clock.1
    let got := s.grinexClient.GetRates ctx5 "usdtrub" w.ext
    let w := w.called (Call.GrinexGetRates ctx5 "usdtrub") got.2
    let w := match got.1.2 with
      | some _ => w.log Level.warn "Grinex API health check failed"
      | none => w
    let w := w.log Level.debug "Health check completed successfully"
    (none, w)

end service

/-! ## Concrete collaborators used to exercise the statements -/

namespace examples

/-- A fixed instant, 2023-11-14T22:13:20Z. -/
def t0 : time.Time := ⟨1700000000, 0⟩

/-- The quote of the service tests. -/
def quote : client.RateData := ⟨"95.5", "95.3", t0, "usdtrub"⟩

/-- A source that always returns `quote`, counting its calls. -/
def okSource : service.GrinexClient Nat :=
  ⟨fun _ _ n => ((some quote, none), n + 1)⟩

/-- A source that always fails. -/
def badSource : service.GrinexClient Nat :=
  ⟨fun _ _ n => ((none, some (GoError.leaf "API error")), n + 1)⟩

/-- A repository every operation of which succeeds. -/
def okRepo : service.Repository Nat :=
  ⟨fun _ _ _ _ _ n => (none, n + 1), fun _ _ _ _ n => (([], none), n + 1),
   fun _ _ n => ((none, none), n + 1), fun _ n => (none, n + 1)⟩

/-- A repository every operation of which fails. -/
def badRepo : service.Repository Nat :=
  ⟨fun _ _ _ _ _ n => (some (GoError.leaf "DB error"), n + 1),
   fun _ _ _ _ n => (([], some (GoError.leaf "DB error")), n + 1),
   fun _ _ n => ((none, some (GoError.leaf "DB error")), n + 1),
   fun _ n => (some (GoError.leaf "DB error"), n + 1)⟩

/-- A clock that shows `t0` plus the number of events so far, in seconds. -/
def clock : Nat → time.Time × Nat :=
  fun n => (⟨1700000000 + n, 0⟩, n + 1)

/-- The empty world of the service. -/
def w0 : service.World Nat := ⟨[], [], 0⟩

/-- An order of which only the price is filled in. -/
def order (price : String) : client.OrderBook := ⟨price, "", "", "", ""⟩

/-- The status-200 response every example exchange sends. -/
def resp200 : http.Response := ⟨200, "200 OK", "body"⟩

/-- An exchange that answers every request with `resp200`, the body of which
decodes to `d`; the clock shows 2027-01-15T08:00:00Z plus the number of
events so far, in seconds. -/
def exchange (d : client.DepthResponse) : client.Runtime Nat :=
  ⟨fun _ => none, fun _ _ n => (Except.ok resp200, n + 1), fun _ => Except.ok d,
   fun n => (⟨1800000000 + n, 0⟩, n + 1)⟩

/-- The client of the client tests. -/
def grinex : client.GrinexClient :=
  client.NewGrinexClient "http://127.0.0.1" "usdtrub" (5 * time.Second)

/-- The empty world of the client. -/
def cw0 : client.World Nat := ⟨[], [], 0⟩

/-- The depth response of the scenario: one ask, one bid, a timestamp. -/
def depthFull : client.DepthResponse :=
  ⟨1700000000000, [order "95.5"], [order "95.3"]⟩

/-- A depth response with no orders and no timestamp. -/
def depthEmpty : client.DepthResponse := ⟨0, [], []⟩

/-- A depth response with asks only. -/
def depthAsksOnly : client.DepthResponse := ⟨1700000000999, [order "95.5"], []⟩

/-- A depth response whose first ask and first bid carry no price. -/
def depthNoPrice : client.DepthResponse :=
  ⟨1700000000000, [order "", order "95.6"], [order ""]⟩

end examples

/-! ## gRPC status errors and protobuf messages -/

namespace codes

/-- The gRPC status codes of `google.golang.org/grpc/codes`. -/
inductive Code where
  | OK
  | Canceled
  | Unknown
  | InvalidArgument
  | DeadlineExceeded
  | NotFound
  | AlreadyExists
  | PermissionDenied
  | ResourceExhausted
  | FailedPrecondition
  | Aborted
  | OutOfRange
  | Unimplemented
  | Internal
  | Unavailable
  | DataLoss
  | Unauthenticated
  deriving DecidableEq, Repr

end codes

namespace status

/-- A gRPC status carried by an error: what `status.FromError` recovers from
it, the code and the message. -/
structure Status where
  Code : codes.Code
  Message : String
  deriving DecidableEq, Repr

/-- The function `status.Error(c, msg)`: an error carrying the status, and nil
when the code is `OK`. -/
def Error (c : codes.Code) (msg : String) : Option Status :=
  if c = codes.Code.OK then none else some ⟨c, msg⟩

end status

namespace timestamppb

/-- A protobuf `Timestamp`: seconds since the Unix epoch and nanoseconds. -/
structure Timestamp where
  Seconds : Int
  Nanos : Int
  deriving DecidableEq, Repr

/-- The Go conversion `int32(n)` of a non-negative integer. -/
def int32 (n : Nat) : Int :=
  ((n : Int) + 2147483648) % 4294967296 - 2147483648

/-- The function `timestamppb.New(t)`: `t.Unix()` and `int32(t.Nanosecond())`. -/
def New (t : time.Time) : Timestamp := ⟨t.sec, int32 t.nsec⟩

/-- The method `AsTime` of a timestamp whose nanoseconds are in `[0, 1e9)`:
`time.Unix(Seconds, Nanos)`. -/
def Timestamp.AsTime (x : Timestamp) : time.Time := time.Unix x.Seconds x.Nanos.toNat

end timestamppb

namespace pb

/-- Modelled from the spec: the message type `GetRatesRequest` of the
generated file `proto/rates/rates.pb.go`, which is not among the sources; its
field is the one the handler reads. -/
structure GetRatesRequest where
  Market : String
  deriving DecidableEq, Repr

/-- Modelled from the spec: the message type `GetRatesResponse` of the
generated file `proto/rates/rates.pb.go`, which is not among the sources; its
fields are the ones the handler fills (`Timestamp` is a pointer). -/
structure GetRatesResponse where
  Ask : String
  Bid : String
  Timestamp : Option timestamppb.Timestamp
  Market : String
  deriving DecidableEq, Repr

/-- Modelled from the spec: the message type `HealthcheckRequest` of the
generated file `proto/rates/rates.pb.go`, which is not among the sources; the
handler reads nothing from it. -/
structure HealthcheckRequest where
  deriving DecidableEq, Repr

/-- Modelled from the spec: the message type `HealthcheckResponse` of the
generated file `proto/rates/rates.pb.go`, which is not among the sources; its
fields are the ones the handler fills (`Timestamp` is a pointer). -/
structure HealthcheckResponse where
  Status : String
  Version : String
  Timestamp : Option timestamppb.Timestamp
  deriving DecidableEq, Repr

end pb

/-! ## Package `internal/api/grpc` -/

namespace grpc

/-- RatesService interface for the service layer, over a service state `σ`.
`GetRates` returns the Go pair `(*client.RateData, error)` unless the callee
panics. -/
structure RatesService (σ : Type) where
  GetRates : context.Context → String → σ →
    service.Outcome (Option client.RateData × Option GoError) × σ
  HealthCheck : context.Context → σ → Option GoError × σ

/-- A call made by the handler through its interface. -/
inductive Call where
  | GetRates (ctx : context.Context) (market : String)
  | HealthCheck (ctx : context.Context)
  deriving DecidableEq, Repr

/-- RatesHandler implements the gRPC RatesService.  `Now` is the wall clock
read by `time.Now()`. -/
structure RatesHandler (σ : Type) where
  ratesService : RatesService σ
  version : String
  Now : σ → time.Time × σ

/-- NewRatesHandler creates a new gRPC rates handler. -/
def NewRatesHandler {σ : Type} (ratesService : RatesService σ) (now : σ → time.Time × σ)
    (version : String) : RatesHandler σ :=
  ⟨ratesService, version, now⟩

/-- What a run of the handler can observe and change: the calls it made to
the service (oldest first), its log, and the state of the service. -/
structure World (σ : Type) where
  calls : List Call
  logs : List LogEntry
  svc : σ

/-- Write a log entry. -/
def World.log {σ : Type} (w : World σ) (level : Level) (msg : String) : World σ :=
  { w with logs := logTo w.logs level msg }

/-- Record a call and install the service state it left behind. -/
def World.called {σ : Type} (w : World σ) (c : Call) (svc : σ) : World σ :=
  { w with calls := w.calls ++ [c], svc := svc }

/-- GetRates handles the GetRates gRPC request.  The result is the Go pair
`(*pb.GetRatesResponse, error)`, the error being a gRPC status error. -/
def RatesHandler.GetRates {σ : Type} (h : RatesHandler σ) (ctx : context.Context)
    (req : pb.GetRatesRequest) (w : World σ) :
    service.Outcome (Option pb.GetRatesResponse × Option status.Status) × World σ :=
  let w := w.log Level.info "GetRates request received"
  if req.Market = "" then
    let w := w.log Level.warn "Empty market in request"
    (service.Outcome.returned
      (none, status.Error codes.Code.InvalidArgument "market is required"), w)
  else
    let got := h.ratesService.GetRates ctx req.Market w.svc
    let w := w.called (Call.GetRates ctx req.Market) got.2
    match got.1 with
    | service.Outcome.panicked => (service.Outcome.panicked, w)
    | service.Outcome.returned (_, some _) =>
      let w := w.log Level.error "Failed to get rates"
      (service.Outcome.returned
        (none, status.Error codes.Code.Internal "failed to get rates"), w)
    | service.Outcome.returned (none, none) => (service.Outcome.panicked, w)
    | service.Outcome.returned (some rateData, none) =>
      let response : pb.GetRatesResponse :=
        ⟨rateData.Ask, rateData.Bid, some (timestamppb.New rateData.Timestamp),
          rateData.Market⟩
      let w := w.log Level.info "GetRates request completed successfully"
      (service.Outcome.returned (some response, none), w)

/-- Healthcheck handles the Healthcheck gRPC request. -/
def RatesHandler.Healthcheck {σ : Type} (h : RatesHandler σ) (ctx : context.Context)
    (_req : pb.HealthcheckRequest) (w : World σ) :
    (Option pb.HealthcheckResponse × Option status.Status) × World σ :=
  let w := w.log Level.debug "Healthcheck request received"
  let checked := h.ratesService.HealthCheck ctx w.svc
  let w := w.called (Call.HealthCheck ctx) checked.2
  let serviceStatus := match checked.1 with
    | some _ => "unhealthy"
    | none => "healthy"
  let w := match checked.1 with
    | some _ => w.log Level.warn "Health check failed"
    | none => w
  let clock := h.Now w.svc
  let w := { w with svc := clock.2 }
  let response : pb.HealthcheckResponse :=
    ⟨serviceStatus, h.version, some (timestamppb.New clock.1)⟩
  let w := w.log Level.debug "Healthcheck request completed"
  ((some response, none), w)

end grpc

/-! ## Package `cmd/server`: the wiring of handler and service -/

namespace server

/-- A `*service.RatesService` used as the handler's `RatesService`, as
`grpc.NewRatesHandler(ratesService, ...)` does: the service state of the
handler is the world of the service. -/
def asHandlerService {σ : Type} (s : service.RatesService σ) :
    grpc.RatesService (service.World σ) :=
  ⟨fun ctx market w => s.GetRates ctx market w, fun ctx w => s.HealthCheck ctx w⟩

/-- The wall clock of the collaborator state, read from the world of the
service. -/
def worldClock {σ : Type} (now : σ → time.Time × σ) :
    service.World σ → time.Time × service.World σ :=
  fun w => ((now w.ext).1, { w with ext := (now w.ext).2 })

/-- The handler built over the service, as in `initializeServices`:
`service.NewRatesService(grinexClient, repo, ...)` handed to
`grpc.NewRatesHandler(ratesService, ..., version)`. -/
def wire {σ : Type} (grinexClient : service.GrinexClient σ) (repo : service.Repository σ)
    (now : σ → time.Time × σ) (version : String) : grpc.RatesHandler (service.World σ) :=
  grpc.NewRatesHandler (asHandlerService (service.NewRatesService grinexClient repo now))
    (worldClock now) version

end server

namespace examples

/-- A stored row. -/
def row : postgres.Rate := ⟨1, "usdtrub", "95.5", "95.3", t0, ⟨1700000001, 0⟩⟩

/-- A second stored row, older than `row`. -/
def rowOld : postgres.Rate := ⟨7, "usdtrub", "94.1", "94.0", ⟨1600000000, 0⟩, ⟨1600000001, 0⟩⟩

/-- A repository that holds `row` and `rowOld`. -/
def fullRepo : service.Repository Nat :=
  ⟨fun _ _ _ _ _ n => (none, n + 1), fun _ _ _ _ n => (([row, rowOld], none), n + 1),
   fun _ _ n => ((some row, none), n + 1), fun _ n => (none, n + 1)⟩

/-- A service layer that answers every `GetRates` with `quote`. -/
def okService : grpc.RatesService Nat :=
  ⟨fun _ _ n => (service.Outcome.returned (some quote, none), n + 1),
   fun _ n => (none, n + 1)⟩

/-- A service layer every operation of which fails with the error `e`. -/
def failingService (e : GoError) : grpc.RatesService Nat :=
  ⟨fun _ _ n => (service.Outcome.returned (none, some e), n + 1),
   fun _ n => (some e, n + 1)⟩

/-- The empty world of the handler over a counter. -/
def hw0 : grpc.World Nat := ⟨[], [], 0⟩

/-- The empty world of the handler wired to the service. -/
def hw1 : grpc.World (service.World Nat) := ⟨[], [], w0⟩

end examples

/-! ## Package `cmd/server`: the service over the real client -/

namespace server

/-- A `*client.GrinexClient` used as the service's `GrinexClient`, as
`service.NewRatesService(grinexClient, repo, ...)` does: the collaborator
state of the service is the world of the client. -/
def asSource {τ : Type} (rt : client.Runtime τ) (c : client.GrinexClient) :
    service.GrinexClient (client.World τ) :=
  ⟨fun ctx market w => c.GetRates rt ctx market w⟩

end server

namespace service

/-- Whether a call is a call of the source's `GetRates`. -/
def Call.isGrinexGetRates : Call → Bool
  | Call.GrinexGetRates _ _ => true
  | _ => false

end service

/-! ## The part of `database/sql` the repository uses -/

namespace sql

/-- A value passed as a query argument or delivered in a column. -/
inductive Value where
  | str (s : String)
  | num (n : Int)
  | instant (t : time.Time)
  deriving DecidableEq, Repr

/-- The `*sql.Row` of `QueryRowContext`, as `Scan` finds it: the columns of
the first row, no row at all (`Scan` returns `sql.ErrNoRows`), or a query
that failed (`Scan` returns its error). -/
inductive Row where
  | columns (cols : List Value)
  | noRows
  | failed (err : GoError)
  deriving DecidableEq, Repr

/-- The `*sql.Rows` of `QueryContext`: the rows `Next` steps through, in the
order the database delivers them, and what `Err` reports after the last. -/
structure Rows where
  rows : List (List Value)
  Err : Option GoError
  deriving DecidableEq, Repr

/-- The handle `*sql.DB`, over a database state `δ`: the behaviour of the
four methods the repository calls, and the text `Format(time.RFC3339Nano)`
gives a time value delivered by the driver (it depends on the location the
driver attaches). -/
structure DB (δ : Type) where
  ExecContext : context.Context → String → List Value → δ → Option GoError × δ
  QueryContext : context.Context → String → List Value → δ → Except GoError Rows × δ
  QueryRowContext : context.Context → String → List Value → δ → Row × δ
  PingContext : context.Context → δ → Option GoError × δ
  FormatTime : time.Time → String

/-- The value of a text of decimal digits, most significant first. -/
def digitsValue (ds : List Char) : Nat :=
  ds.foldl (fun n c => n * 10 + (c.toNat - '0'.toNat)) 0

/-- The call `strconv.ParseInt(s, 10, 64)`: an optional sign, then at least
one decimal digit, the value within the range of `int64`. -/
def parseInt (s : String) : Option Int :=
  let signed : Bool × List Char :=
    match s.data with
    | '-' :: ds => (true, ds)
    | '+' :: ds => (false, ds)
    | ds => (false, ds)
  if signed.2 = [] ∨ ¬ signed.2.all Char.isDigit then none
  else
    let v : Int := if signed.1 then -(digitsValue signed.2 : Int) else digitsValue signed.2
    if -9223372036854775808 ≤ v ∧ v ≤ 9223372036854775807 then some v else none

/-- The conversion `Scan` makes into an `*int64`. -/
def scanInt64 : Value → Except GoError Int
  | Value.num n => .ok n
  | Value.str s =>
    match parseInt s with
    | some n => .ok n
    | none => .error (GoError.leaf "sql: Scan error: converting string to int64")
  | Value.instant _ => .error (GoError.leaf "sql: Scan error: converting time.Time to int64")

/-- The conversion `Scan` makes into a `*string`. -/
def scanString (format : time.Time → String) : Value → Except GoError String
  | Value.str s => .ok s
  | Value.num n => .ok (toString n)
  | Value.instant t => .ok (format t)

/-- The conversion `Scan` makes into a `*time.Time`. -/
def scanTime : Value → Except GoError time.Time
  | Value.instant t => .ok t
  | Value.str _ => .error (GoError.leaf "sql: Scan error: storing string into *time.Time")
  | Value.num _ => .error (GoError.leaf "sql: Scan error: storing int64 into *time.Time")

end sql

/-! ## Package `internal/storage/postgres`: the repository -/

namespace postgres

/-- The call `Scan(&rate.ID, &rate.Market, &rate.Ask, &rate.Bid,
&rate.Timestamp, &rate.CreatedAt)` on the columns of a row: six columns,
converted in this order into the types of the fields; the first conversion
that fails, or another number of columns, is the error. -/
def Rate.Scan (format : time.Time → String) (cols : List sql.Value) : Except GoError Rate :=
  match cols with
  | [c1, c2, c3, c4, c5, c6] =>
    match sql.scanInt64 c1 with
    | .error err => .error err
    | .ok id =>
      match sql.scanString format c2 with
      | .error err => .error err
      | .ok market =>
        match sql.scanString format c3 with
        | .error err => .error err
        | .ok ask =>
          match sql.scanString format c4 with
          | .error err => .error err
          | .ok bid =>
            match sql.scanTime c5 with
            | .error err => .error err
            | .ok timestamp =>
              match sql.scanTime c6 with
              | .error err => .error err
              | .ok createdAt => .ok ⟨id, market, ask, bid, timestamp, createdAt⟩
  | _ => .error (GoError.leaf "sql: expected 6 destination arguments in Scan")

/-- Repository represents the PostgreSQL repository (its logger lives in the
world). -/
structure Repository (δ : Type) where
  db : sql.DB δ

/-- NewRepository creates a new PostgreSQL repository. -/
def NewRepository {δ : Type} (db : sql.DB δ) : Repository δ := ⟨db⟩

/-- What a run of the repository can observe and change: its log and the
state of the database. -/
structure World (δ : Type) where
  logs : List LogEntry
  db : δ

/-- Write a log entry. -/
def World.log {δ : Type} (w : World δ) (level : Level) (msg : String) : World δ :=
  { w with logs := logTo w.logs level msg }

/-- The statement of `SaveRate`. -/
def saveRateQuery : String :=
  "\n\t\tINSERT INTO rates (market, ask, bid, timestamp, created_at)" ++
  "\n\t\tVALUES ($1, $2, $3, $4, NOW())\n\t"

/-- The statement of `GetRates`. -/
def getRatesQuery : String :=
  "\n\t\tSELECT id, market, ask, bid, timestamp, created_at\n\t\tFROM rates" ++
  "\n\t\tWHERE market = $1\n\t\tORDER BY created_at DESC\n\t\tLIMIT $2 OFFSET $3\n\t"

/-- The statement of `GetLatestRate`. -/
def getLatestRateQuery : String :=
  "\n\t\tSELECT id, market, ask, bid, timestamp, created_at\n\t\tFROM rates" ++
  "\n\t\tWHERE market = $1\n\t\tORDER BY created_at DESC\n\t\tLIMIT 1\n\t"

/-- SaveRate saves a rate to the database. -/
def Repository.SaveRate {δ : Type} (r : Repository δ) (ctx : context.Context)
    (market ask bid : String) (timestamp : time.Time) (w : World δ) :
    Option GoError × World δ :=
  let w := w.log Level.debug "Saving rate to database"
  let done := r.db.ExecContext ctx saveRateQuery
    [sql.Value.str market, sql.Value.str ask, sql.Value.str bid, sql.Value.instant timestamp]
    w.db
  let w := { w with db := done.2 }
  match done.1 with
  | some err =>
    let w := w.log Level.error "Failed to save rate"
    (some (fmt.Errorf_w "failed to save rate: " err), w)
  | none =>
    let w := w.log Level.info "Rate saved successfully"
    (none, w)

/-- The loop `for rows.Next()` of `GetRates`: each row is scanned and
appended to `rates`; the first scan error ends the loop. -/
def scanRows (format : time.Time → String) :
    List (List sql.Value) → List Rate → Except GoError (List Rate)
  | [], rates => .ok rates
  | cols :: rest, rates =>
    match Rate.Scan format cols with
    | .error err => .error err
    | .ok rate => scanRows format rest (rates ++ [rate])

/-- GetRates retrieves rates from the database with pagination. -/
def Repository.GetRates {δ : Type} (r : Repository δ) (ctx : context.Context)
    (market : String) (limit offset : Int) (w : World δ) :
    (List Rate × Option GoError) × World δ :=
  let w := w.log Level.debug "Retrieving rates from database"
  let got := r.db.QueryContext ctx getRatesQuery
    [sql.Value.str market, sql.Value.num limit, sql.Value.num offset] w.db
  let w := { w with db := got.2 }
  match got.1 with
  | .error err =>
    let w := w.log Level.error "Failed to query rates"
    (([], some (fmt.Errorf_w "failed to query rates: " err)), w)
  | .ok rows =>
    match scanRows r.db.FormatTime rows.rows [] with
    | .error err =>
      let w := w.log Level.error "Failed to scan rate"
      (([], some (fmt.Errorf_w "failed to scan rate: " err)), w)
    | .ok rates =>
      match rows.Err with
      | some err =>
        let w := w.log Level.error "Error during rows iteration"
        (([], some (fmt.Errorf_w "error during rows iteration: " err)), w)
      | none =>
        let w := w.log Level.debug "Retrieved rates from database"
        ((rates, none), w)

/-- GetLatestRate retrieves the latest rate for a market. -/
def Repository.GetLatestRate {δ : Type} (r : Repository δ) (ctx : context.Context)
    (market : String) (w : World δ) : (Option Rate × Option GoError) × World δ :=
  let w := w.log Level.debug "Retrieving latest rate from database"
  let got := r.db.QueryRowContext ctx getLatestRateQuery [sql.Value.str market] w.db
  let w := { w with db := got.2 }
  match got.1 with
  | sql.Row.noRows =>
    let w := w.log Level.debug "No rates found"
    ((none, none), w)
  | sql.Row.failed err =>
    let w := w.log Level.error "Failed to query latest rate"
    ((none, some (fmt.Errorf_w "failed to query latest rate: " err)), w)
  | sql.Row.columns cols =>
    match Rate.Scan r.db.FormatTime cols with
    | .error err =>
      let w := w.log Level.error "Failed to query latest rate"
      ((none, some (fmt.Errorf_w "failed to query latest rate: " err)), w)
    | .ok rate =>
      let w := w.log Level.debug "Retrieved latest rate from database"
      ((some rate, none), w)

/-- Ping checks the database connection. -/
def Repository.Ping {δ : Type} (r : Repository δ) (ctx : context.Context) (w : World δ) :
    Option GoError × World δ :=
  let pinged := r.db.PingContext ctx w.db
  let w := { w with db := pinged.2 }
  match pinged.1 with
  | some err =>
    let w := w.log Level.error "Database ping failed"
    (some (fmt.Errorf_w "database ping failed: " err), w)
  | none => (none, w)

end postgres

/-! ## PostgreSQL answering the statements of the repository -/

namespace pg

/-- Modelled from the spec: the persisted state behind `*sql.DB`, that is the
PostgreSQL database and its table `rates`, whose schema belongs to the
migration tooling and is not among the sources.  The table is kept in storage
order; `nextID` is the next generated identifier, `now` the value of `NOW()`,
and `down` the failure of the connection, if it is down. -/
structure State where
  rates : List postgres.Rate
  nextID : Int
  now : time.Time
  down : Option GoError
  deriving DecidableEq, Repr

/-- Modelled from the spec: the columns of the table `rates` (generated
identifier, market, ask, bid, observation timestamp, creation timestamp),
whose schema is not among the sources, under the names the statements of the
repository use, in upper case. -/
def column (r : postgres.Rate) (name : List Char) : Option sql.Value :=
  if name = "ID".data then some (sql.Value.num r.ID)
  else if name = "MARKET".data then some (sql.Value.str r.Market)
  else if name = "ASK".data then some (sql.Value.str r.Ask)
  else if name = "BID".data then some (sql.Value.str r.Bid)
  else if name = "TIMESTAMP".data then some (sql.Value.instant r.Timestamp)
  else if name = "CREATED_AT".data then some (sql.Value.instant r.CreatedAt)
  else none

/-- The columns `id, market, ask, bid, timestamp, created_at` of a row. -/
def columns (r : postgres.Rate) : List sql.Value :=
  [sql.Value.num r.ID, sql.Value.str r.Market, sql.Value.str r.Ask, sql.Value.str r.Bid,
    sql.Value.instant r.Timestamp, sql.Value.instant r.CreatedAt]

/-- White space between the words of a statement. -/
def isSpace (c : Char) : Bool := c = ' ' || c = '\n' || c = '\t' || c = '\r'

/-- The characters that are words of their own. -/
def isPunct (c : Char) : Bool := c = ',' || c = '(' || c = ')' || c = '='

/-- The words of a statement, in upper case (keywords and unquoted names are
case-insensitive); `cur` is the word being read. -/
def words : List Char → List Char → List (List Char)
  | [], cur => if cur = [] then [] else [cur]
  | c :: cs, cur =>
    if isSpace c then (if cur = [] then words cs [] else cur :: words cs [])
    else if isPunct c then
      (if cur = [] then [c] :: words cs [] else cur :: [c] :: words cs [])
    else words cs (cur ++ [c.toUpper])

/-- A row count in a statement: a parameter `$n` or a literal number. -/
inductive Count where
  | param (n : Nat)
  | literal (k : Nat)
  deriving DecidableEq, Repr

/-- A statement of the form `SELECT columns FROM table WHERE column = $n
ORDER BY column ASC|DESC LIMIT count [OFFSET count]`. -/
structure Select where
  columns : List (List Char)
  table : List Char
  whereColumn : List Char
  whereParam : Nat
  orderColumn : List Char
  descending : Bool
  limit : Count
  offset : Option Count
  deriving DecidableEq, Repr

/-- A word of decimal digits as a number. -/
def number (t : List Char) : Option Nat :=
  if t = [] ∨ ¬ t.all Char.isDigit then none else some (sql.digitsValue t)

/-- A word `$n` as the parameter number `n`. -/
def param (t : List Char) : Option Nat :=
  match t with
  | '$' :: ds => number ds
  | _ => none

/-- A word as a row count. -/
def count (t : List Char) : Option Count :=
  match param t with
  | some n => some (Count.param n)
  | none => (number t).map Count.literal

/-- The select list up to `FROM`: the columns, and the words after `FROM`. -/
def selectList : List (List Char) → Option (List (List Char) × List (List Char))
  | c :: sep :: rest =>
    if sep = "FROM".data then some ([c], rest)
    else if sep = ",".data then (selectList rest).map (fun r => (c :: r.1, r.2))
    else none
  | _ => none

/-- Reading a statement of the form of `Select`; `none` is a syntax error. -/
def parseSelect (query : String) : Option Select :=
  match words query.data [] with
  | sel :: rest =>
    if sel = "SELECT".data then
      match selectList rest with
      | some (cols, table :: wh :: wcol :: eq :: wpar :: ord :: by1 :: ocol :: dir :: lim ::
          limv :: tail) =>
        if wh = "WHERE".data ∧ eq = "=".data ∧ ord = "ORDER".data ∧ by1 = "BY".data ∧
            lim = "LIMIT".data ∧ (dir = "DESC".data ∨ dir = "ASC".data) then
          match param wpar, count limv, tail with
          | some p, some l, [] =>
            some ⟨cols, table, wcol, p, ocol, decide (dir = "DESC".data), l, none⟩
          | some p, some l, [off, offv] =>
            if off = "OFFSET".data then
              (count offv).map (fun o =>
                ⟨cols, table, wcol, p, ocol, decide (dir = "DESC".data), l, some o⟩)
            else none
          | _, _, _ => none
        else none
      | _ => none
    else none
  | [] => none

/-- The argument bound to the parameter `$n`. -/
def argument (args : List sql.Value) (n : Nat) : Option sql.Value :=
  if n = 0 then none else args.get? (n - 1)

/-- The order of two texts, character by character. -/
def textLe : List Char → List Char → Bool
  | [], _ => true
  | _ :: _, [] => false
  | a :: as, b :: bs => if a = b then textLe as bs else decide (a.toNat < b.toNat)

/-- The order of two values of one kind. -/
def valueLe : sql.Value → sql.Value → Bool
  | sql.Value.num a, sql.Value.num b => decide (a ≤ b)
  | sql.Value.instant a, sql.Value.instant b => decide (a.UnixNano ≤ b.UnixNano)
  | sql.Value.str a, sql.Value.str b => textLe a.data b.data
  | _, _ => true

/-- Whether row `a` may come before row `b` under `ORDER BY`. -/
def comesFirst (q : Select) (a b : postgres.Rate) : Bool :=
  match column a q.orderColumn, column b q.orderColumn with
  | some x, some y => if q.descending then valueLe y x else valueLe x y
  | _, _ => true

/-- Rows arranged by a sort under the order `before`.  SQL leaves the order of
rows that compare equal open; this arrangement is one a database may choose. -/
def arrange (before : postgres.Rate → postgres.Rate → Bool) (l : List postgres.Rate) :
    List postgres.Rate :=
  l.insertionSort (fun a b => before a b = true)

/-- The number of rows a `LIMIT` or `OFFSET` stands for; a negative number is
an error. -/
def rowCount (args : List sql.Value) (what : String) : Count → Except GoError Nat
  | Count.literal k => .ok k
  | Count.param n =>
    match argument args n with
    | some (sql.Value.num k) =>
      if k < 0 then .error (GoError.leaf ("pq: " ++ what ++ " must not be negative"))
      else .ok k.toNat
    | _ => .error (GoError.leaf ("pq: invalid argument for " ++ what))

/-- The select list of a statement applied to a row. -/
def project (cols : List (List Char)) (r : postgres.Rate) : Option (List sql.Value) :=
  match cols with
  | [] => some []
  | c :: rest =>
    match column r c, project rest r with
    | some v, some vs => some (v :: vs)
    | _, _ => none

/-- The select list applied to each row. -/
def projectAll (cols : List (List Char)) : List postgres.Rate → Option (List (List sql.Value))
  | [] => some []
  | r :: rs =>
    match project cols r, projectAll cols rs with
    | some v, some vs => some (v :: vs)
    | _, _ => none

/-- Modelled from the spec: PostgreSQL, which is not among the sources,
executing a statement of the form of `Select` on the table `rates`: the rows
whose `WHERE` column equals the argument, arranged by `ORDER BY`, the `OFFSET`
rows skipped and at most `LIMIT` rows kept, each reduced to the select list. -/
def run (q : Select) (args : List sql.Value) (st : State) :
    Except GoError (List (List sql.Value)) :=
  if q.table ≠ "RATES".data then .error (GoError.leaf "pq: relation does not exist")
  else if (column ⟨0, "", "", "", ⟨0, 0⟩, ⟨0, 0⟩⟩ q.whereColumn).isNone ∨
      (column ⟨0, "", "", "", ⟨0, 0⟩, ⟨0, 0⟩⟩ q.orderColumn).isNone then
    .error (GoError.leaf "pq: column does not exist")
  else
    match argument args q.whereParam with
    | none => .error (GoError.leaf "pq: missing parameter")
    | some key =>
      match rowCount args "LIMIT" q.limit with
      | .error err => .error err
      | .ok limit =>
        match (match q.offset with
          | some c => rowCount args "OFFSET" c
          | none => .ok 0) with
        | .error err => .error err
        | .ok offset =>
          match projectAll q.columns
            (((arrange (comesFirst q)
              (st.rates.filter (fun r => column r q.whereColumn = some key))).drop
              offset).take limit) with
          | none => .error (GoError.leaf "pq: column does not exist")
          | some rows => .ok rows

/-- Modelled from the spec: PostgreSQL behind `*sql.DB`, which is not among
the sources.  A connection that is down fails every call.  Otherwise a query
is read from its text and executed on the table; a text that is not of the
form of `Select` is a syntax error.  Statements that change the table are the
parameter `exec`, and `format` is the text of a time value.  The context is
not consulted: cancellation and deadlines are not modelled. -/
def engine (exec : String → List sql.Value → State → Option GoError × State)
    (format : time.Time → String) : sql.DB State where
  ExecContext := fun _ query args st =>
    match st.down with
    | some err => (some err, st)
    | none => exec query args st
  QueryContext := fun _ query args st =>
    match st.down with
    | some err => (.error err, st)
    | none =>
      match parseSelect query with
      | none => (.error (GoError.leaf "pq: syntax error"), st)
      | some q =>
        match run q args st with
        | .error err => (.error err, st)
        | .ok rows => (.ok ⟨rows, none⟩, st)
  QueryRowContext := fun _ query args st =>
    match st.down with
    | some err => (sql.Row.failed err, st)
    | none =>
      match parseSelect query with
      | none => (sql.Row.failed (GoError.leaf "pq: syntax error"), st)
      | some q =>
        match run q args st with
        | .error err => (sql.Row.failed err, st)
        | .ok [] => (sql.Row.noRows, st)
        | .ok (cols :: _) => (sql.Row.columns cols, st)
  PingContext := fun _ st => (st.down, st)
  FormatTime := format

/-- The statement of `GetRates`, as read. -/
def getRatesSelect : Select :=
  ⟨["ID".data, "MARKET".data, "ASK".data, "BID".data, "TIMESTAMP".data, "CREATED_AT".data],
    "RATES".data, "MARKET".data, 1, "CREATED_AT".data, true, Count.param 2,
    some (Count.param 3)⟩

/-- The statement of `GetLatestRate`, as read. -/
def getLatestRateSelect : Select :=
  ⟨["ID".data, "MARKET".data, "ASK".data, "BID".data, "TIMESTAMP".data, "CREATED_AT".data],
    "RATES".data, "MARKET".data, 1, "CREATED_AT".data, true, Count.literal 1, none⟩

/-- The order `created_at DESC`: `a` may come before `b` when `a` was not
created before `b`. -/
def newerFirst (a b : postgres.Rate) : Prop :=
  b.CreatedAt.UnixNano ≤ a.CreatedAt.UnixNano

instance : DecidableRel newerFirst :=
  fun a b => inferInstanceAs (Decidable (b.CreatedAt.UnixNano ≤ a.CreatedAt.UnixNano))

/-- The rows of a market, newest creation instant first. -/
def selected (st : State) (market : String) : List postgres.Rate :=
  arrange (fun a b => decide (newerFirst a b)) (st.rates.filter (fun r => r.Market = market))

end pg

namespace examples

/-- A stored row of another market, the newest of all. -/
def rowOther : postgres.Rate := ⟨9, "btcusd", "1.0", "0.9", t0, ⟨1700000005, 0⟩⟩

/-- A database with three rows, stored oldest first, and a live connection. -/
def pgState : pg.State := ⟨[rowOld, row, rowOther], 10, ⟨1700000010, 0⟩, none⟩

/-- The same database with the connection down. -/
def pgDown : pg.State :=
  ⟨[rowOld, row, rowOther], 10, ⟨1700000010, 0⟩, some (GoError.leaf "connection refused")⟩

/-- A database that refuses every statement that changes the table. -/
def readOnly : String → List sql.Value → pg.State → Option GoError × pg.State :=
  fun _ _ st => (some (GoError.leaf "pq: cannot execute in a read-only transaction"), st)

/-- A text for time values: the seconds since the epoch, in decimal. -/
def unixText : time.Time → String := fun t => toString t.sec

/-- The repository over PostgreSQL. -/
def pgRepo : postgres.Repository pg.State :=
  postgres.NewRepository (pg.engine readOnly unixText)

end examples

/-! ## Package `internal/config` -/

namespace config

/-- DatabaseConfig holds database configuration. -/
structure DatabaseConfig where
  Host : String
  Port : Int
  User : String
  Password : String
  Database : String
  SSLMode : String
  MaxOpenConns : Int
  MaxIdleConns : Int
  ConnMaxLifetime : time.Duration
  deriving DecidableEq, Repr

/-- DatabaseDSN returns the database connection string. -/
def DatabaseConfig.DatabaseDSN (c : DatabaseConfig) : String :=
  "host=" ++ c.Host ++ " port=" ++ toString c.Port ++ " user=" ++ c.User ++
    " password=" ++ c.Password ++ " dbname=" ++ c.Database ++
    " sslmode=disable connect_timeout=10"

end config

namespace examples

/-- A store over the world of the client whose operations all return `e`
as their error (`none`: they succeed). -/
def storeOver (e : Option GoError) : service.Repository (client.World Nat) :=
  ⟨fun _ _ _ _ _ w => (e, w), fun _ _ _ _ w => (([], e), w),
   fun _ _ w => ((none, e), w), fun _ w => (e, w)⟩

/-- A clock over the world of the client. -/
def clientClock : client.World Nat → time.Time × client.World Nat :=
  fun w => (⟨1800000000 + w.net, 0⟩, w)

/-- The empty world of the service over the client. -/
def sw0 : service.World (client.World Nat) := ⟨[], [], cw0⟩

/-- A caller's context with a deadline one second after `t0`. -/
def ctxSoon : context.Context := ⟨some ⟨1700000001, 0⟩⟩

/-- The configuration defaults of `Load`, with SSL required. -/
def dbConfig : config.DatabaseConfig :=
  ⟨"localhost", 5432, "postgres", "postgres", "usdt_rates", "require", 25, 25,
    300 * time.Second⟩

end examples

/-! ## The Grinex client: from depth response to quote -/

namespace client

/-- Logging leaves the environment state alone. -/
theorem World.log_net {τ : Type} (w : World τ) (level : Level) (msg : String) :
    (w.log level msg).net = w.net := rfl

/-- The request built by `GetRates` once the header is set. -/
theorem GrinexClient.depthRequest_eq (c : GrinexClient) (ctx : context.Context)
    (market : String) :
    http.Request.HeaderSet
      ⟨http.MethodGet, url.split (c.baseURL ++ "/api/v2/depth?market=" ++ market), [], ctx⟩
      "Accept" "application/json" = c.depthRequest ctx market := rfl

/-- The run of `GetRates` when the fetch goes through: the quote is built from
the decoded response by the selection and timestamp rules of the code. -/
theorem GrinexClient.GetRates_of_fetches {τ : Type} (rt : Runtime τ) (c : GrinexClient)
    (ctx : context.Context) (market : String) (w : World τ) (resp : http.Response)
    (d : DepthResponse) (h : Fetches rt c ctx market w resp d) :
    (c.GetRates rt ctx market w).1 = (some
      ⟨if 0 < d.Asks.length ∧ (d.Asks.headD default).Price ≠ ""
          then (d.Asks.headD default).Price else "N/A",
       if 0 < d.Bids.length ∧ (d.Bids.headD default).Price ≠ ""
          then (d.Bids.headD default).Price else "N/A",
       if 0 < d.Timestamp then time.Unix (Int.tdiv d.Timestamp 1000) 0
          else (rt.Now (rt.Do c.httpClient (c.depthRequest ctx market) w.net).2).1,
       market⟩, none) := by
  obtain ⟨hp, hd, hs, hj⟩ := h
  simp only [GrinexClient.GetRates, http.NewRequestWithContext, hp,
    GrinexClient.depthRequest_eq, World.log_net, hd, hs, hj, http.StatusOK]
  by_cases he : d.Asks.length = 0 ∧ d.Bids.length = 0
  · rw [if_pos he]
    simp [World.log]
  · rw [if_neg he]
    simp [World.log]

/-- A run of `GetRates` that returns a quote went through a fetch. -/
theorem GrinexClient.GetRates_inv {τ : Type} (rt : Runtime τ) (c : GrinexClient)
    (ctx : context.Context) (market : String) (w : World τ) (q : RateData)
    (h : (c.GetRates rt ctx market w).1.1 = some q) :
    ∃ resp d, Fetches rt c ctx market w resp d := by
  unfold GrinexClient.GetRates at h
  simp only [http.NewRequestWithContext, World.log_net] at h
  cases hp : rt.ParseURL (c.baseURL ++ "/api/v2/depth?market=" ++ market) with
  | some err => simp [hp] at h
  | none =>
    simp only [hp, GrinexClient.depthRequest_eq] at h
    cases hd : (rt.Do c.httpClient (c.depthRequest ctx market) w.net).1 with
    | error err => simp [hd] at h
    | ok resp =>
      simp only [hd] at h
      by_cases hs : resp.StatusCode = http.StatusOK
      · cases hj : rt.Decode resp.Body with
        | error err => simp [hs, hj] at h
        | ok d => exact ⟨resp, d, hp, hd, hs, hj⟩
      · simp [hs] at h

/-- The selection rule of the code on a side of the book that has a first
order. -/
theorem select_cons (o : OrderBook) (rest : List OrderBook) :
    (if 0 < (o :: rest).length ∧ ((o :: rest).headD default).Price ≠ ""
      then ((o :: rest).headD default).Price else "N/A")
      = if o.Price = "" then "N/A" else o.Price := by
  by_cases hp : o.Price = "" <;> simp [hp]

/-- The selection rule of the code on an empty side of the book. -/
theorem select_nil :
    (if 0 < ([] : List OrderBook).length ∧ (([] : List OrderBook).headD default).Price ≠ ""
      then (([] : List OrderBook).headD default).Price else "N/A") = "N/A" := by
  simp

/-- The selection rule never yields the empty string. -/
theorem select_ne_empty (l : List OrderBook) :
    (if 0 < l.length ∧ (l.headD default).Price ≠ ""
      then (l.headD default).Price else "N/A") ≠ "" := by
  by_cases hc : 0 < l.length ∧ (l.headD default).Price ≠ ""
  · rw [if_pos hc]
    exact hc.2
  · rw [if_neg hc]
    decide

/-- The selection rule yields the sentinel or the price of the first order. -/
theorem select_cases (l : List OrderBook) :
    (if 0 < l.length ∧ (l.headD default).Price ≠ ""
      then (l.headD default).Price else "N/A") = "N/A" ∨
    ∃ o rest, l = o :: rest ∧
      (if 0 < l.length ∧ (l.headD default).Price ≠ ""
        then (l.headD default).Price else "N/A") = o.Price := by
  cases l with
  | nil => exact Or.inl select_nil
  | cons o rest =>
    by_cases hp : o.Price = ""
    · left
      rw [select_cons, if_pos hp]
    · right
      exact ⟨o, rest, rfl, by rw [select_cons, if_neg hp]⟩

end client

/-! ## The rates service: partial-failure policy -/

namespace service

/-- Logging leaves the collaborator state alone. -/
theorem World.log_ext {σ : Type} (w : World σ) (level : Level) (msg : String) :
    (w.log level msg).ext = w.ext := rfl

/-- Logging leaves the trace of calls alone. -/
theorem World.log_calls {σ : Type} (w : World σ) (level : Level) (msg : String) :
    (w.log level msg).calls = w.calls := rfl

/-- The run of `GetRates` when the source returns a quote and no error. -/
theorem RatesService.GetRates_of_quote {σ : Type} (s : RatesService σ)
    (ctx : context.Context) (market : String) (w : World σ) (q : client.RateData)
    (h : (s.grinexClient.GetRates ctx market w.ext).1 = (some q, none)) :
    (s.GetRates ctx market w).1 = Outcome.returned (some q, none) ∧
    (s.GetRates ctx market w).2.calls = w.calls ++
      [Call.GrinexGetRates ctx market,
       Call.SaveRate ctx q.Market q.Ask q.Bid q.Timestamp] ∧
    (s.GetRates ctx market w).2.ext =
      (s.repository.SaveRate ctx q.Market q.Ask q.Bid q.Timestamp
        (s.grinexClient.GetRates ctx market w.ext).2).2 := by
  simp only [RatesService.GetRates, World.log_ext, h]
  refine ⟨trivial, ?_, ?_⟩
  · cases hs : (s.repository.SaveRate ctx q.Market q.Ask q.Bid q.Timestamp
        (s.grinexClient.GetRates ctx market w.ext).2).1 <;>
      simp [World.called, World.log, hs]
  · cases hs : (s.repository.SaveRate ctx q.Market q.Ask q.Bid q.Timestamp
        (s.grinexClient.GetRates ctx market w.ext).2).1 <;>
      simp [World.called, World.log, hs]

/-- The run of `GetRates` when the source returns an error. -/
theorem RatesService.GetRates_of_error {σ : Type} (s : RatesService σ)
    (ctx : context.Context) (market : String) (w : World σ) (e : GoError)
    (h : (s.grinexClient.GetRates ctx market w.ext).1.2 = some e) :
    (s.GetRates ctx market w).1 = Outcome.returned
      (none, some (fmt.Errorf_w "failed to get rates from Grinex: " e)) ∧
    (s.GetRates ctx market w).2.calls = w.calls ++ [Call.GrinexGetRates ctx market] ∧
    (s.GetRates ctx market w).2.ext = (s.grinexClient.GetRates ctx market w.ext).2 := by
  rcases hg : (s.grinexClient.GetRates ctx market w.ext).1 with ⟨x, y⟩
  rw [hg] at h
  simp only at h
  subst h
  simp only [RatesService.GetRates, World.log_ext, hg]
  exact ⟨trivial, rfl, rfl⟩

/-- The result of `HealthCheck` is decided by `Ping` alone. -/
theorem RatesService.HealthCheck_result {σ : Type} (s : RatesService σ)
    (ctx : context.Context) (w : World σ) :
    (s.HealthCheck ctx w).1 =
      (s.repository.Ping ctx w.ext).1.map (fmt.Errorf_w "database health check failed: ") := by
  simp only [RatesService.HealthCheck, World.log_ext]
  cases hp : (s.repository.Ping ctx w.ext).1 <;> simp

end service

section ServiceClaims

open service

/-- C1: when the source returns the quote `q` with a nil error,
`RatesService.GetRates` returns exactly `(q, nil)` whatever the repository
does: two runs that differ only in the repository (hence in the outcome of
`SaveRate`) return the same pair. -/
theorem C1_GetRates_result_independent_of_SaveRate {σ : Type}
    (grinex : GrinexClient σ) (repo repo' : Repository σ) (now : σ → time.Time × σ)
    (ctx : context.Context) (market : String) (w : World σ) (q : client.RateData)
    (h : (grinex.GetRates ctx market w.ext).1 = (some q, none)) :
    ((NewRatesService grinex repo now).GetRates ctx market w).1
        = Outcome.returned (some q, none) ∧
    ((NewRatesService grinex repo' now).GetRates ctx market w).1
        = ((NewRatesService grinex repo now).GetRates ctx market w).1 := by
  have h1 := (RatesService.GetRates_of_quote (NewRatesService grinex repo now)
    ctx market w q h).1
  have h2 := (RatesService.GetRates_of_quote (NewRatesService grinex repo' now)
    ctx market w q h).1
  exact ⟨h1, h2.trans h1.symm⟩

/-- C1 at the quote of the service tests, with a repository whose `SaveRate`
succeeds and one whose `SaveRate` fails. -/
theorem C1_GetRates_result_independent_of_SaveRate_witness :
    (examples.okRepo.SaveRate context.Background "usdtrub" "95.5" "95.3" examples.t0 1).1
        = none ∧
    (examples.badRepo.SaveRate context.Background "usdtrub" "95.5" "95.3" examples.t0 1).1
        = some (GoError.leaf "DB error") ∧
    ((NewRatesService examples.okSource examples.okRepo examples.clock).GetRates
        context.Background "usdtrub" examples.w0).1
        = Outcome.returned (some examples.quote, none) ∧
    ((NewRatesService examples.okSource examples.badRepo examples.clock).GetRates
        context.Background "usdtrub" examples.w0).1
        = ((NewRatesService examples.okSource examples.okRepo examples.clock).GetRates
            context.Background "usdtrub" examples.w0).1 :=
  ⟨rfl, rfl, C1_GetRates_result_independent_of_SaveRate examples.okSource examples.okRepo
    examples.badRepo examples.clock context.Background "usdtrub" examples.w0
    examples.quote rfl⟩

/-- C2: when the source's `GetRates` returns an error `e`,
`RatesService.GetRates` returns a nil quote and a non-nil error (the wrapped
`e`), the only call it makes is the source call, so `Repository.SaveRate` is
not called, and the collaborator state is the one the source left. -/
theorem C2_GetRates_source_error_no_SaveRate {σ : Type} (s : RatesService σ)
    (ctx : context.Context) (market : String) (w : World σ) (e : GoError)
    (h : (s.grinexClient.GetRates ctx market w.ext).1.2 = some e) :
    (s.GetRates ctx market w).1 = Outcome.returned
      (none, some (fmt.Errorf_w "failed to get rates from Grinex: " e)) ∧
    (s.GetRates ctx market w).2.calls = w.calls ++ [Call.GrinexGetRates ctx market] ∧
    (∀ c ∈ ((s.GetRates ctx market w).2.calls).drop w.calls.length,
      c.isSaveRate = false) ∧
    (s.GetRates ctx market w).2.ext = (s.grinexClient.GetRates ctx market w.ext).2 := by
  obtain ⟨h1, h2, h3⟩ := RatesService.GetRates_of_error s ctx market w e h
  refine ⟨h1, h2, ?_, h3⟩
  rw [h2, List.drop_left]
  intro c hc
  rw [List.mem_singleton] at hc
  subst hc
  rfl

/-- C2 at a failing source in front of a working repository. -/
theorem C2_GetRates_source_error_no_SaveRate_witness :
    ((NewRatesService examples.badSource examples.okRepo examples.clock).GetRates
        context.Background "usdtrub" examples.w0).1
      = Outcome.returned (none, some (GoError.wrap
          "failed to get rates from Grinex: API error" (GoError.leaf "API error"))) ∧
    ((NewRatesService examples.badSource examples.okRepo examples.clock).GetRates
        context.Background "usdtrub" examples.w0).2.calls
      = [Call.GrinexGetRates context.Background "usdtrub"] :=
  ⟨(C2_GetRates_source_error_no_SaveRate
      (NewRatesService examples.badSource examples.okRepo examples.clock)
      context.Background "usdtrub" examples.w0 (GoError.leaf "API error") rfl).1,
   (C2_GetRates_source_error_no_SaveRate
      (NewRatesService examples.badSource examples.okRepo examples.clock)
      context.Background "usdtrub" examples.w0 (GoError.leaf "API error") rfl).2.1⟩

/-- C3: when the source returns the quote `q`, the calls `RatesService.GetRates`
makes are the source call followed by one `SaveRate` call with the arguments
`(q.Market, q.Ask, q.Bid, q.Timestamp)`; `SaveRate` occurs exactly once among
them and runs on the state the source call left. -/
theorem C3_GetRates_saves_quote_once {σ : Type} (s : RatesService σ)
    (ctx : context.Context) (market : String) (w : World σ) (q : client.RateData)
    (h : (s.grinexClient.GetRates ctx market w.ext).1 = (some q, none)) :
    (s.GetRates ctx market w).2.calls = w.calls ++
      [Call.GrinexGetRates ctx market,
       Call.SaveRate ctx q.Market q.Ask q.Bid q.Timestamp] ∧
    (((s.GetRates ctx market w).2.calls).drop w.calls.length).countP Call.isSaveRate = 1 ∧
    (s.GetRates ctx market w).2.ext =
      (s.repository.SaveRate ctx q.Market q.Ask q.Bid q.Timestamp
        (s.grinexClient.GetRates ctx market w.ext).2).2 := by
  obtain ⟨_, h2, h3⟩ := RatesService.GetRates_of_quote s ctx market w q h
  refine ⟨h2, ?_, h3⟩
  rw [h2, List.drop_left]
  rfl

/-- C3 at the quote of the service tests. -/
theorem C3_GetRates_saves_quote_once_witness :
    ((NewRatesService examples.okSource examples.okRepo examples.clock).GetRates
        context.Background "usdtrub" examples.w0).2.calls
      = [Call.GrinexGetRates context.Background "usdtrub",
         Call.SaveRate context.Background "usdtrub" "95.5" "95.3" examples.t0] :=
  (C3_GetRates_saves_quote_once
    (NewRatesService examples.okSource examples.okRepo examples.clock)
    context.Background "usdtrub" examples.w0 examples.quote rfl).1

/-- C4: `RatesService.HealthCheck` returns a non-nil error if and only if
`Repository.Ping` returns an error; when `Ping` succeeds it returns nil for
every source, whatever the source probe returns. -/
theorem C4_HealthCheck_fails_iff_Ping_fails {σ : Type}
    (grinex : GrinexClient σ) (repo : Repository σ) (now : σ → time.Time × σ)
    (ctx : context.Context) (w : World σ) :
    (((NewRatesService grinex repo now).HealthCheck ctx w).1 ≠ none ↔
      (repo.Ping ctx w.ext).1 ≠ none) ∧
    ((repo.Ping ctx w.ext).1 = none ↔
      ∀ grinex' : GrinexClient σ,
        ((NewRatesService grinex' repo now).HealthCheck ctx w).1 = none) := by
  constructor
  · rw [RatesService.HealthCheck_result]
    simp [NewRatesService]
  · constructor
    · intro hp grinex'
      rw [RatesService.HealthCheck_result]
      simp [NewRatesService, hp]
    · intro hall
      have := hall grinex
      rw [RatesService.HealthCheck_result] at this
      simpa [NewRatesService] using this

end ServiceClaims

section ClientClaims

open client

/-- C5: on a fetch that goes through with decoded depth response `d`,
`GrinexClient.GetRates` returns a quote whose Ask is the price of `d.Asks[0]`
when `d.Asks` is non-empty and that price is not the empty string, and
`"N/A"` otherwise (first price empty, or no asks); Bid follows the same rule
on `d.Bids`. -/
theorem C5_GetRates_selection_rule {τ : Type} (rt : Runtime τ) (c : GrinexClient)
    (ctx : context.Context) (market : String) (w : World τ) (resp : http.Response)
    (d : DepthResponse) (h : Fetches rt c ctx market w resp d) :
    ∃ q, (c.GetRates rt ctx market w).1 = (some q, none) ∧
      (∀ o rest, d.Asks = o :: rest → o.Price ≠ "" → q.Ask = o.Price) ∧
      (∀ o rest, d.Asks = o :: rest → o.Price = "" → q.Ask = "N/A") ∧
      (d.Asks = [] → q.Ask = "N/A") ∧
      (∀ o rest, d.Bids = o :: rest → o.Price ≠ "" → q.Bid = o.Price) ∧
      (∀ o rest, d.Bids = o :: rest → o.Price = "" → q.Bid = "N/A") ∧
      (d.Bids = [] → q.Bid = "N/A") := by
  refine ⟨_, GrinexClient.GetRates_of_fetches rt c ctx market w resp d h, ?_, ?_, ?_, ?_, ?_, ?_⟩
  · intro o rest hl hp
    simp only [hl, select_cons, if_neg hp]
  · intro o rest hl hp
    simp only [hl, select_cons, if_pos hp]
  · intro hl
    simp only [hl, select_nil]
  · intro o rest hl hp
    simp only [hl, select_cons, if_neg hp]
  · intro o rest hl hp
    simp only [hl, select_cons, if_pos hp]
  · intro hl
    simp only [hl, select_nil]

/-- C5 at a response whose first ask has no price and whose bids are
`[95.3]`: the fetch goes through, Ask is the sentinel and Bid the first
price. -/
theorem C5_GetRates_selection_rule_witness :
    Fetches (examples.exchange ⟨0, [examples.order ""], [examples.order "95.3"]⟩)
      examples.grinex context.Background "usdtrub" examples.cw0 examples.resp200
      ⟨0, [examples.order ""], [examples.order "95.3"]⟩ ∧
    ∃ q, (examples.grinex.GetRates
        (examples.exchange ⟨0, [examples.order ""], [examples.order "95.3"]⟩)
        context.Background "usdtrub" examples.cw0).1 = (some q, none) ∧
      q.Ask = "N/A" ∧ q.Bid = "95.3" :=
  ⟨⟨rfl, rfl, rfl, rfl⟩,
   (C5_GetRates_selection_rule
      (examples.exchange ⟨0, [examples.order ""], [examples.order "95.3"]⟩)
      examples.grinex context.Background "usdtrub" examples.cw0 examples.resp200
      ⟨0, [examples.order ""], [examples.order "95.3"]⟩ ⟨rfl, rfl, rfl, rfl⟩).imp
    (fun _ hq => ⟨hq.1, hq.2.2.1 _ _ rfl rfl, hq.2.2.2.2.1 _ _ rfl (by decide)⟩)⟩

/-- C6, as stated, fails: for the response `depthNoPrice`, whose asks are
`["", "95.6"]` and whose bids are `[""]`, the fetch goes through and both
arrays are non-empty, yet Ask and Bid are `"N/A"`, not the (empty) price of
the first element. -/
theorem C6_first_price_counterexample :
    Fetches (examples.exchange examples.depthNoPrice) examples.grinex context.Background
      "usdtrub" examples.cw0 examples.resp200 examples.depthNoPrice ∧
    examples.depthNoPrice.Asks = examples.order "" :: [examples.order "95.6"] ∧
    examples.depthNoPrice.Bids = examples.order "" :: [] ∧
    (examples.grinex.GetRates (examples.exchange examples.depthNoPrice)
      context.Background "usdtrub" examples.cw0).1
      = (some ⟨"N/A", "N/A", ⟨1700000000, 0⟩, "usdtrub"⟩, none) ∧
    ("N/A" : String) ≠ (examples.order "").Price :=
  ⟨⟨rfl, rfl, rfl, rfl⟩, rfl, rfl, rfl, by decide⟩

/-- C6, amended: on a fetch that goes through, when `asks` is non-empty and
the price of its first element is not the empty string, the quote's Ask is
that price; likewise for `bids` and Bid. -/
theorem C6_first_price_when_not_empty {τ : Type} (rt : Runtime τ) (c : GrinexClient)
    (ctx : context.Context) (market : String) (w : World τ) (resp : http.Response)
    (d : DepthResponse) (h : Fetches rt c ctx market w resp d) :
    ∃ q, (c.GetRates rt ctx market w).1 = (some q, none) ∧
      (∀ o rest, d.Asks = o :: rest → o.Price ≠ "" → q.Ask = o.Price) ∧
      (∀ o rest, d.Bids = o :: rest → o.Price ≠ "" → q.Bid = o.Price) := by
  refine ⟨_, GrinexClient.GetRates_of_fetches rt c ctx market w resp d h, ?_, ?_⟩
  · intro o rest hl hp
    simp only [hl, select_cons, if_neg hp]
  · intro o rest hl hp
    simp only [hl, select_cons, if_neg hp]

/-- C6, amended, at the response of the scenario: Ask is `95.5`, Bid is
`95.3`. -/
theorem C6_first_price_when_not_empty_witness :
    Fetches (examples.exchange examples.depthFull) examples.grinex context.Background
      "usdtrub" examples.cw0 examples.resp200 examples.depthFull ∧
    ∃ q, (examples.grinex.GetRates (examples.exchange examples.depthFull)
        context.Background "usdtrub" examples.cw0).1 = (some q, none) ∧
      q.Ask = "95.5" ∧ q.Bid = "95.3" :=
  ⟨⟨rfl, rfl, rfl, rfl⟩,
   (C6_first_price_when_not_empty (examples.exchange examples.depthFull) examples.grinex
      context.Background "usdtrub" examples.cw0 examples.resp200 examples.depthFull
      ⟨rfl, rfl, rfl, rfl⟩).imp
    (fun _ hq => ⟨hq.1, hq.2.1 _ _ rfl (by decide), hq.2.2 _ _ rfl (by decide)⟩)⟩

/-- C7: on a fetch that goes through (status 200, body decoded to `d`),
`GrinexClient.GetRates` returns a quote and a nil error; with `d.Asks` and
`d.Bids` both empty, Ask and Bid are both `"N/A"`, and an empty array on one
side alone gives `"N/A"` on that side. -/
theorem C7_empty_sides_give_sentinel {τ : Type} (rt : Runtime τ) (c : GrinexClient)
    (ctx : context.Context) (market : String) (w : World τ) (resp : http.Response)
    (d : DepthResponse) (h : Fetches rt c ctx market w resp d) :
    ∃ q, (c.GetRates rt ctx market w).1 = (some q, none) ∧
      (d.Asks = [] → d.Bids = [] → q.Ask = "N/A" ∧ q.Bid = "N/A") ∧
      (d.Asks = [] → q.Ask = "N/A") ∧
      (d.Bids = [] → q.Bid = "N/A") := by
  refine ⟨_, GrinexClient.GetRates_of_fetches rt c ctx market w resp d h, ?_, ?_, ?_⟩
  · intro ha hb
    simp only [ha, hb, select_nil, and_self]
  · intro ha
    simp only [ha, select_nil]
  · intro hb
    simp only [hb, select_nil]

/-- C7 at the response with no orders at all. -/
theorem C7_empty_sides_give_sentinel_witness :
    Fetches (examples.exchange examples.depthEmpty) examples.grinex context.Background
      "usdtrub" examples.cw0 examples.resp200 examples.depthEmpty ∧
    ∃ q, (examples.grinex.GetRates (examples.exchange examples.depthEmpty)
        context.Background "usdtrub" examples.cw0).1 = (some q, none) ∧
      q.Ask = "N/A" ∧ q.Bid = "N/A" :=
  ⟨⟨rfl, rfl, rfl, rfl⟩,
   (C7_empty_sides_give_sentinel (examples.exchange examples.depthEmpty) examples.grinex
      context.Background "usdtrub" examples.cw0 examples.resp200 examples.depthEmpty
      ⟨rfl, rfl, rfl, rfl⟩).imp
    (fun _ hq => ⟨hq.1, hq.2.1 rfl rfl⟩)⟩

/-- C8: every quote `q` returned by `GrinexClient.GetRates` comes from a fetch
with some decoded response `d`; its Ask is `"N/A"` or the price of the first
order of `d.Asks`, its Bid is `"N/A"` or the price of the first order of
`d.Bids`, and neither is the empty string. -/
theorem C8_quote_invariant {τ : Type} (rt : Runtime τ) (c : GrinexClient)
    (ctx : context.Context) (market : String) (w : World τ) (q : RateData)
    (h : (c.GetRates rt ctx market w).1.1 = some q) :
    q.Ask ≠ "" ∧ q.Bid ≠ "" ∧
    ∃ resp d, Fetches rt c ctx market w resp d ∧
      (q.Ask = "N/A" ∨ ∃ o rest, d.Asks = o :: rest ∧ q.Ask = o.Price) ∧
      (q.Bid = "N/A" ∨ ∃ o rest, d.Bids = o :: rest ∧ q.Bid = o.Price) := by
  obtain ⟨resp, d, hf⟩ := GrinexClient.GetRates_inv rt c ctx market w q h
  have hq := GrinexClient.GetRates_of_fetches rt c ctx market w resp d hf
  rw [hq] at h
  simp only [Option.some.injEq] at h
  subst h
  exact ⟨select_ne_empty d.Asks, select_ne_empty d.Bids, resp, d, hf,
    select_cases d.Asks, select_cases d.Bids⟩

/-- C8 at the quote returned for the response with asks only. -/
theorem C8_quote_invariant_witness :
    (examples.grinex.GetRates (examples.exchange examples.depthAsksOnly)
        context.Background "usdtrub" examples.cw0).1.1
      = some ⟨"95.5", "N/A", ⟨1700000000, 0⟩, "usdtrub"⟩ ∧
    ("95.5" : String) ≠ "" ∧ ("N/A" : String) ≠ "" :=
  ⟨rfl,
   (C8_quote_invariant (examples.exchange examples.depthAsksOnly) examples.grinex
      context.Background "usdtrub" examples.cw0 ⟨"95.5", "N/A", ⟨1700000000, 0⟩, "usdtrub"⟩
      rfl).1,
   (C8_quote_invariant (examples.exchange examples.depthAsksOnly) examples.grinex
      context.Background "usdtrub" examples.cw0 ⟨"95.5", "N/A", ⟨1700000000, 0⟩, "usdtrub"⟩
      rfl).2.1⟩

/-- C9: on a fetch that goes through with decoded millisecond timestamp
`t = d.Timestamp`: if `t > 0` the quote's Timestamp is `floor (t / 1000)` whole
seconds after the Unix epoch with no sub-second part (for `t = 1700000000000`
that is 2023-11-14T22:13:20Z); if `t ≤ 0`, which includes an absent field, it
is the reading of the wall clock taken during the call, after the round trip. -/
theorem C9_timestamp_rule {τ : Type} (rt : Runtime τ) (c : GrinexClient)
    (ctx : context.Context) (market : String) (w : World τ) (resp : http.Response)
    (d : DepthResponse) (h : Fetches rt c ctx market w resp d) :
    ∃ q, (c.GetRates rt ctx market w).1 = (some q, none) ∧
      (0 < d.Timestamp → q.Timestamp = ⟨⌊(d.Timestamp : ℚ) / 1000⌋, 0⟩) ∧
      (d.Timestamp = 1700000000000 →
        q.Timestamp = ⟨1700000000, 0⟩ ∧ q.Timestamp.UTC = ⟨2023, 11, 14, 22, 13, 20⟩) ∧
      (d.Timestamp ≤ 0 → q.Timestamp =
        (rt.Now (rt.Do c.httpClient (c.depthRequest ctx market) w.net).2).1) := by
  refine ⟨_, GrinexClient.GetRates_of_fetches rt c ctx market w resp d h, ?_, ?_, ?_⟩
  · intro ht
    have hfloor : ⌊(d.Timestamp : ℚ) / 1000⌋ = d.Timestamp / 1000 := by
      simpa using Rat.floor_intCast_div_natCast d.Timestamp 1000
    simp only [if_pos ht, time.Unix, hfloor,
      Int.tdiv_eq_ediv (le_of_lt ht) (by decide : (0 : Int) ≤ 1000)]
  · intro ht
    simp only [ht]
    exact ⟨rfl, rfl⟩
  · intro ht
    simp only [if_neg (not_lt.mpr ht)]

/-- C9 at the response of the scenario, `t = 1700000000000`. -/
theorem C9_timestamp_rule_witness :
    Fetches (examples.exchange examples.depthFull) examples.grinex context.Background
      "usdtrub" examples.cw0 examples.resp200 examples.depthFull ∧
    ∃ q, (examples.grinex.GetRates (examples.exchange examples.depthFull)
        context.Background "usdtrub" examples.cw0).1 = (some q, none) ∧
      q.Timestamp = ⟨1700000000, 0⟩ ∧ q.Timestamp.UTC = ⟨2023, 11, 14, 22, 13, 20⟩ :=
  ⟨⟨rfl, rfl, rfl, rfl⟩,
   (C9_timestamp_rule (examples.exchange examples.depthFull) examples.grinex
      context.Background "usdtrub" examples.cw0 examples.resp200 examples.depthFull
      ⟨rfl, rfl, rfl, rfl⟩).imp
    (fun _ hq => ⟨hq.1, hq.2.2.1 rfl⟩)⟩

/-- C10: every quote returned by `GrinexClient.GetRates` has Market equal to
the `market` argument, for every market string and every response. -/
theorem C10_market_passed_through {τ : Type} (rt : Runtime τ) (c : GrinexClient)
    (ctx : context.Context) (market : String) (w : World τ) (q : RateData)
    (h : (c.GetRates rt ctx market w).1.1 = some q) :
    q.Market = market := by
  obtain ⟨resp, d, hf⟩ := GrinexClient.GetRates_inv rt c ctx market w q h
  have hq := GrinexClient.GetRates_of_fetches rt c ctx market w resp d hf
  rw [hq] at h
  simp only [Option.some.injEq] at h
  subst h
  rfl

/-- C10 at a market string that is no market code, against an exchange that
answers with the response of the scenario. -/
theorem C10_market_passed_through_witness :
    (examples.grinex.GetRates (examples.exchange examples.depthFull)
        context.Background "no such market &x=1" examples.cw0).1.1
      = some ⟨"95.5", "95.3", ⟨1700000000, 0⟩, "no such market &x=1"⟩ ∧
    (⟨"95.5", "95.3", ⟨1700000000, 0⟩, "no such market &x=1"⟩ : RateData).Market
      = "no such market &x=1" :=
  ⟨rfl,
   C10_market_passed_through (examples.exchange examples.depthFull) examples.grinex
      context.Background "no such market &x=1" examples.cw0
      ⟨"95.5", "95.3", ⟨1700000000, 0⟩, "no such market &x=1"⟩ rfl⟩

end ClientClaims

/-! ## The Grinex client: failures -/

namespace client

/-- The run of `GetRates` when the URL does not parse. -/
theorem GrinexClient.GetRates_of_parse_error {τ : Type} (rt : Runtime τ) (c : GrinexClient)
    (ctx : context.Context) (market : String) (w : World τ) (e : GoError)
    (h : rt.ParseURL (c.baseURL ++ "/api/v2/depth?market=" ++ market) = some e) :
    (c.GetRates rt ctx market w).1 =
      (none, some (fmt.Errorf_w "failed to create request: " e)) := by
  simp only [GrinexClient.GetRates, http.NewRequestWithContext, h]

/-- The run of `GetRates` when the round trip fails. -/
theorem GrinexClient.GetRates_of_transport_error {τ : Type} (rt : Runtime τ)
    (c : GrinexClient) (ctx : context.Context) (market : String) (w : World τ) (e : GoError)
    (hp : rt.ParseURL (c.baseURL ++ "/api/v2/depth?market=" ++ market) = none)
    (hd : (rt.Do c.httpClient (c.depthRequest ctx market) w.net).1 = Except.error e) :
    (c.GetRates rt ctx market w).1 =
      (none, some (fmt.Errorf_w "failed to make request: " e)) := by
  simp only [GrinexClient.GetRates, http.NewRequestWithContext, hp,
    GrinexClient.depthRequest_eq, World.log_net, hd]

/-- The run of `GetRates` when the response has a status other than 200. -/
theorem GrinexClient.GetRates_of_status {τ : Type} (rt : Runtime τ)
    (c : GrinexClient) (ctx : context.Context) (market : String) (w : World τ)
    (resp : http.Response)
    (hp : rt.ParseURL (c.baseURL ++ "/api/v2/depth?market=" ++ market) = none)
    (hd : (rt.Do c.httpClient (c.depthRequest ctx market) w.net).1 = Except.ok resp)
    (hs : resp.StatusCode ≠ 200) :
    (c.GetRates rt ctx market w).1 =
      (none, some (fmt.Errorf_d "unexpected status code: " resp.StatusCode)) := by
  simp only [GrinexClient.GetRates, http.NewRequestWithContext, hp,
    GrinexClient.depthRequest_eq, World.log_net, hd, http.StatusOK]
  rw [if_pos hs]

/-- The run of `GetRates` when the body of a status-200 response does not
decode. -/
theorem GrinexClient.GetRates_of_decode_error {τ : Type} (rt : Runtime τ)
    (c : GrinexClient) (ctx : context.Context) (market : String) (w : World τ)
    (resp : http.Response) (e : GoError)
    (hp : rt.ParseURL (c.baseURL ++ "/api/v2/depth?market=" ++ market) = none)
    (hd : (rt.Do c.httpClient (c.depthRequest ctx market) w.net).1 = Except.ok resp)
    (hs : resp.StatusCode = 200) (hj : rt.Decode resp.Body = Except.error e) :
    (c.GetRates rt ctx market w).1 =
      (none, some (fmt.Errorf_w "failed to decode response: " e)) := by
  simp only [GrinexClient.GetRates, http.NewRequestWithContext, hp,
    GrinexClient.depthRequest_eq, World.log_net, hd, http.StatusOK, hs, hj]
  simp

/-- Every run of `GetRates` returns a quote with a nil error or a nil quote
with an error. -/
theorem GrinexClient.GetRates_cases {τ : Type} (rt : Runtime τ) (c : GrinexClient)
    (ctx : context.Context) (market : String) (w : World τ) :
    (∃ q, (c.GetRates rt ctx market w).1 = (some q, none)) ∨
    (∃ e, (c.GetRates rt ctx market w).1 = (none, some e)) := by
  cases hp : rt.ParseURL (c.baseURL ++ "/api/v2/depth?market=" ++ market) with
  | some e => exact Or.inr ⟨_, GrinexClient.GetRates_of_parse_error rt c ctx market w e hp⟩
  | none =>
    cases hd : (rt.Do c.httpClient (c.depthRequest ctx market) w.net).1 with
    | error e =>
      exact Or.inr ⟨_, GrinexClient.GetRates_of_transport_error rt c ctx market w e hp hd⟩
    | ok resp =>
      by_cases hs : resp.StatusCode = 200
      · cases hj : rt.Decode resp.Body with
        | error e =>
          exact Or.inr
            ⟨_, GrinexClient.GetRates_of_decode_error rt c ctx market w resp e hp hd hs hj⟩
        | ok d =>
          exact Or.inl
            ⟨_, GrinexClient.GetRates_of_fetches rt c ctx market w resp d ⟨hp, hd, hs, hj⟩⟩
      · exact Or.inr ⟨_, GrinexClient.GetRates_of_status rt c ctx market w resp hp hd hs⟩

end client

section ClientFailureClaims

open client

/-- C11: `GrinexClient.GetRates` returns a quote if and only if the fetch goes
through, that is the request could be built (the URL parses) and sent (the
round trip yields a response), the status is exactly 200 and the body decodes
as a depth response; every response with a status other than 200, inside or
outside the 2xx range, yields a nil quote and an error. -/
theorem C11_quote_iff_fetch_goes_through {τ : Type} (rt : Runtime τ) (c : GrinexClient)
    (ctx : context.Context) (market : String) (w : World τ) :
    ((∃ q, (c.GetRates rt ctx market w).1.1 = some q) ↔
      ∃ resp d,
        rt.ParseURL (c.baseURL ++ "/api/v2/depth?market=" ++ market) = none ∧
        (rt.Do c.httpClient (c.depthRequest ctx market) w.net).1 = Except.ok resp ∧
        resp.StatusCode = 200 ∧
        rt.Decode resp.Body = Except.ok d) ∧
    (∀ resp,
      rt.ParseURL (c.baseURL ++ "/api/v2/depth?market=" ++ market) = none →
      (rt.Do c.httpClient (c.depthRequest ctx market) w.net).1 = Except.ok resp →
      resp.StatusCode ≠ 200 →
      (c.GetRates rt ctx market w).1 =
        (none, some (GoError.leaf ("unexpected status code: " ++ toString resp.StatusCode)))) := by
  refine ⟨⟨?_, ?_⟩, ?_⟩
  · rintro ⟨q, hq⟩
    exact GrinexClient.GetRates_inv rt c ctx market w q hq
  · rintro ⟨resp, d, hf⟩
    have hq := GrinexClient.GetRates_of_fetches rt c ctx market w resp d hf
    exact ⟨_, by rw [hq]⟩
  · intro resp hp hd hs
    exact GrinexClient.GetRates_of_status rt c ctx market w resp hp hd hs

/-- C12: every run of `GrinexClient.GetRates` returns either a quote with a
nil error or a nil quote with a non-nil error; it never returns nil with nil,
nor a quote together with an error. -/
theorem C12_quote_xor_error {τ : Type} (rt : Runtime τ) (c : GrinexClient)
    (ctx : context.Context) (market : String) (w : World τ) :
    ((∃ q, (c.GetRates rt ctx market w).1 = (some q, none)) ∨
      (∃ e, (c.GetRates rt ctx market w).1 = (none, some e))) ∧
    (c.GetRates rt ctx market w).1 ≠ (none, none) ∧
    (∀ q e, (c.GetRates rt ctx market w).1 ≠ (some q, some e)) ∧
    ((c.GetRates rt ctx market w).1.1 = none ↔ (c.GetRates rt ctx market w).1.2 ≠ none) := by
  rcases GrinexClient.GetRates_cases rt c ctx market w with ⟨q, hq⟩ | ⟨e, he⟩
  · refine ⟨Or.inl ⟨q, hq⟩, ?_, ?_, ?_⟩ <;> simp [hq]
  · refine ⟨Or.inr ⟨e, he⟩, ?_, ?_, ?_⟩ <;> simp [he]

end ClientFailureClaims

/-! ## The rates service: store queries -/

section StoreQueryClaims

open service

/-- C14: `RatesService.GetLatestRate` makes one `Repository.GetLatestRate`
call with the same market; when that call has no error it returns exactly
its result, the absent result (nil rate, nil error) included, and when the
call fails it returns a nil rate and a non-nil error (the wrapped cause). -/
theorem C14_GetLatestRate_passthrough {σ : Type} (s : RatesService σ)
    (ctx : context.Context) (market : String) (w : World σ) :
    (s.GetLatestRate ctx market w).2.calls
      = w.calls ++ [Call.RepoGetLatestRate ctx market] ∧
    (∀ r, (s.repository.GetLatestRate ctx market w.ext).1 = (r, none) →
      (s.GetLatestRate ctx market w).1 = (r, none)) ∧
    ((s.repository.GetLatestRate ctx market w.ext).1 = (none, none) →
      (s.GetLatestRate ctx market w).1 = (none, none)) ∧
    (∀ r e, (s.repository.GetLatestRate ctx market w.ext).1 = (r, some e) →
      (s.GetLatestRate ctx market w).1
        = (none, some (fmt.Errorf_w "failed to get latest rate: " e))) := by
  refine ⟨?_, ?_, ?_, ?_⟩
  · simp only [RatesService.GetLatestRate, World.log_ext]
    cases (s.repository.GetLatestRate ctx market w.ext).1.2 <;> rfl
  · intro r hr
    simp only [RatesService.GetLatestRate, World.log_ext, hr]
  · intro hr
    simp only [RatesService.GetLatestRate, World.log_ext, hr]
  · intro r e hr
    simp only [RatesService.GetLatestRate, World.log_ext, hr]

/-- C15: `RatesService.GetRatesHistory` makes one `Repository.GetRates` call
with the market, limit and offset it was given, whatever their values; when
that call has no error it returns the same sequence, and when the call fails
it returns a nil sequence and a non-nil error (the wrapped cause). -/
theorem C15_GetRatesHistory_passthrough {σ : Type} (s : RatesService σ)
    (ctx : context.Context) (market : String) (limit offset : Int) (w : World σ) :
    (s.GetRatesHistory ctx market limit offset w).2.calls
      = w.calls ++ [Call.RepoGetRates ctx market limit offset] ∧
    (∀ rows, (s.repository.GetRates ctx market limit offset w.ext).1 = (rows, none) →
      (s.GetRatesHistory ctx market limit offset w).1 = (rows, none)) ∧
    (∀ rows e, (s.repository.GetRates ctx market limit offset w.ext).1 = (rows, some e) →
      (s.GetRatesHistory ctx market limit offset w).1
        = ([], some (fmt.Errorf_w "failed to get rates history: " e))) := by
  refine ⟨?_, ?_, ?_⟩
  · simp only [RatesService.GetRatesHistory, World.log_ext]
    cases (s.repository.GetRates ctx market limit offset w.ext).1.2 <;> rfl
  · intro rows hr
    simp only [RatesService.GetRatesHistory, World.log_ext, hr]
  · intro rows e hr
    simp only [RatesService.GetRatesHistory, World.log_ext, hr]

end StoreQueryClaims

/-! ## The gRPC handler -/

namespace grpc

/-- Logging leaves the service state alone. -/
theorem World.log_svc {σ : Type} (w : World σ) (level : Level) (msg : String) :
    (w.log level msg).svc = w.svc := rfl

/-- Logging leaves the trace of calls alone. -/
theorem World.log_keeps_calls {σ : Type} (w : World σ) (level : Level) (msg : String) :
    (w.log level msg).calls = w.calls := rfl

/-- The run of the handler's `GetRates` on a request with an empty market. -/
theorem RatesHandler.GetRates_of_empty {σ : Type} (h : RatesHandler σ)
    (ctx : context.Context) (req : pb.GetRatesRequest) (w : World σ)
    (hm : req.Market = "") :
    (h.GetRates ctx req w).1 = service.Outcome.returned
      (none, some ⟨codes.Code.InvalidArgument, "market is required"⟩) ∧
    (h.GetRates ctx req w).2.calls = w.calls ∧
    (h.GetRates ctx req w).2.svc = w.svc := by
  simp only [RatesHandler.GetRates, hm, if_true]
  exact ⟨rfl, rfl, rfl⟩

/-- The run of the handler's `GetRates` when the service returns an error. -/
theorem RatesHandler.GetRates_on_error {σ : Type} (h : RatesHandler σ)
    (ctx : context.Context) (req : pb.GetRatesRequest) (w : World σ)
    (x : Option client.RateData) (e : GoError) (hm : req.Market ≠ "")
    (hs : (h.ratesService.GetRates ctx req.Market w.svc).1
      = service.Outcome.returned (x, some e)) :
    (h.GetRates ctx req w).1 = service.Outcome.returned
      (none, some ⟨codes.Code.Internal, "failed to get rates"⟩) ∧
    (h.GetRates ctx req w).2.calls = w.calls ++ [Call.GetRates ctx req.Market] := by
  simp only [RatesHandler.GetRates, if_neg hm, World.log_svc, hs]
  exact ⟨rfl, rfl⟩

/-- The run of the handler's `GetRates` when the service returns a quote. -/
theorem RatesHandler.GetRates_on_quote {σ : Type} (h : RatesHandler σ)
    (ctx : context.Context) (req : pb.GetRatesRequest) (w : World σ)
    (q : client.RateData) (hm : req.Market ≠ "")
    (hs : (h.ratesService.GetRates ctx req.Market w.svc).1
      = service.Outcome.returned (some q, none)) :
    (h.GetRates ctx req w).1 = service.Outcome.returned
      (some ⟨q.Ask, q.Bid, some (timestamppb.New q.Timestamp), q.Market⟩, none) ∧
    (h.GetRates ctx req w).2.calls = w.calls ++ [Call.GetRates ctx req.Market] := by
  simp only [RatesHandler.GetRates, if_neg hm, World.log_svc, hs]
  exact ⟨trivial, rfl⟩

/-- The response of `Healthcheck`: the status follows the result of the
service's `HealthCheck`, the version is the handler's, the timestamp is the
clock reading taken after the check. -/
theorem RatesHandler.Healthcheck_result {σ : Type} (h : RatesHandler σ)
    (ctx : context.Context) (req : pb.HealthcheckRequest) (w : World σ) :
    (h.Healthcheck ctx req w).1 =
      (some ⟨if (h.ratesService.HealthCheck ctx w.svc).1 = none then "healthy" else "unhealthy",
        h.version,
        some (timestamppb.New (h.Now (h.ratesService.HealthCheck ctx w.svc).2).1)⟩, none) := by
  simp only [RatesHandler.Healthcheck, World.log_svc]
  cases hc : (h.ratesService.HealthCheck ctx w.svc).1 <;> simp [World.called, World.log]

end grpc

namespace timestamppb

/-- A timestamp built from a well-formed instant reads back as that instant. -/
theorem AsTime_New (t : time.Time) (h : t.nsec < 1000000000) : (New t).AsTime = t := by
  have h32 : int32 t.nsec = (t.nsec : Int) := by
    unfold int32
    omega
  simp only [New, Timestamp.AsTime, time.Unix, h32, Int.toNat_ofNat]

end timestamppb

section HandlerClaims

open grpc

/-- C16: for a request whose Market is the empty string,
`RatesHandler.GetRates` returns a nil response and an error with gRPC code
`InvalidArgument`, and makes no call to the service: the trace of calls and
the state of the service are unchanged. -/
theorem C16_empty_market_invalid_argument {σ : Type} (h : RatesHandler σ)
    (ctx : context.Context) (req : pb.GetRatesRequest) (w : World σ)
    (hm : req.Market = "") :
    (∃ st, (h.GetRates ctx req w).1 = service.Outcome.returned (none, some st) ∧
      st.Code = codes.Code.InvalidArgument) ∧
    (h.GetRates ctx req w).2.calls = w.calls ∧
    (h.GetRates ctx req w).2.svc = w.svc := by
  obtain ⟨h1, h2, h3⟩ := RatesHandler.GetRates_of_empty h ctx req w hm
  exact ⟨⟨_, h1, rfl⟩, h2, h3⟩

/-- C16 at the empty request in front of a working service. -/
theorem C16_empty_market_invalid_argument_witness :
    ((NewRatesHandler examples.okService examples.clock "1.0.0").GetRates
        context.Background ⟨""⟩ examples.hw0).2.calls = [] ∧
    ((NewRatesHandler examples.okService examples.clock "1.0.0").GetRates
        context.Background ⟨""⟩ examples.hw0).2.svc = 0 :=
  (C16_empty_market_invalid_argument
    (NewRatesHandler examples.okService examples.clock "1.0.0")
    context.Background ⟨""⟩ examples.hw0 rfl).2

/-- C17: for a request with a non-empty Market, whenever the service's
`GetRates` returns an error, `RatesHandler.GetRates` returns a nil response
and the gRPC error with code `Internal` and the fixed message
`failed to get rates`: two runs whose services fail with different errors
`e` and `e'` return the same result. -/
theorem C17_service_error_opaque {σ : Type} (svc svc' : RatesService σ)
    (now : σ → time.Time × σ) (version : String)
    (ctx : context.Context) (req : pb.GetRatesRequest) (w : World σ)
    (x x' : Option client.RateData) (e e' : GoError) (hm : req.Market ≠ "")
    (hs : (svc.GetRates ctx req.Market w.svc).1 = service.Outcome.returned (x, some e))
    (hs' : (svc'.GetRates ctx req.Market w.svc).1 = service.Outcome.returned (x', some e')) :
    ((NewRatesHandler svc now version).GetRates ctx req w).1
      = service.Outcome.returned (none, some ⟨codes.Code.Internal, "failed to get rates"⟩) ∧
    ((NewRatesHandler svc' now version).GetRates ctx req w).1
      = ((NewRatesHandler svc now version).GetRates ctx req w).1 := by
  have h1 := (RatesHandler.GetRates_on_error (NewRatesHandler svc now version)
    ctx req w x e hm hs).1
  have h2 := (RatesHandler.GetRates_on_error (NewRatesHandler svc' now version)
    ctx req w x' e' hm hs').1
  exact ⟨h1, h2.trans h1.symm⟩

/-- C17 at two services that fail with different errors. -/
theorem C17_service_error_opaque_witness :
    GoError.leaf "service error" ≠ GoError.leaf "pq: password authentication failed" ∧
    ((NewRatesHandler (examples.failingService (GoError.leaf "service error"))
        examples.clock "1.0.0").GetRates context.Background ⟨"usdtrub"⟩ examples.hw0).1
      = service.Outcome.returned (none, some ⟨codes.Code.Internal, "failed to get rates"⟩) ∧
    ((NewRatesHandler
        (examples.failingService (GoError.leaf "pq: password authentication failed"))
        examples.clock "1.0.0").GetRates context.Background ⟨"usdtrub"⟩ examples.hw0).1
      = ((NewRatesHandler (examples.failingService (GoError.leaf "service error"))
          examples.clock "1.0.0").GetRates context.Background ⟨"usdtrub"⟩ examples.hw0).1 :=
  ⟨by decide,
   C17_service_error_opaque (examples.failingService (GoError.leaf "service error"))
    (examples.failingService (GoError.leaf "pq: password authentication failed"))
    examples.clock "1.0.0" context.Background ⟨"usdtrub"⟩ examples.hw0 none none
    (GoError.leaf "service error") (GoError.leaf "pq: password authentication failed")
    (by decide) rfl rfl⟩

/-- C18: for a request with a non-empty Market for which the service's
`GetRates` returns the quote `q` (a well-formed instant, nanoseconds below
one second), `RatesHandler.GetRates` returns a nil error and a response whose
Ask, Bid and Market are those of `q` and whose Timestamp reads back as the
instant `q.Timestamp`; the only call it makes is one `GetRates` call with the
request's Market. -/
theorem C18_quote_to_response {σ : Type} (h : RatesHandler σ)
    (ctx : context.Context) (req : pb.GetRatesRequest) (w : World σ)
    (q : client.RateData) (hm : req.Market ≠ "")
    (hs : (h.ratesService.GetRates ctx req.Market w.svc).1
      = service.Outcome.returned (some q, none))
    (hn : q.Timestamp.nsec < 1000000000) :
    (∃ resp ts, (h.GetRates ctx req w).1 = service.Outcome.returned (some resp, none) ∧
      resp.Ask = q.Ask ∧ resp.Bid = q.Bid ∧ resp.Market = q.Market ∧
      resp.Timestamp = some ts ∧ ts.AsTime = q.Timestamp) ∧
    (h.GetRates ctx req w).2.calls = w.calls ++ [Call.GetRates ctx req.Market] := by
  obtain ⟨h1, h2⟩ := RatesHandler.GetRates_on_quote h ctx req w q hm hs
  exact ⟨⟨_, _, h1, rfl, rfl, rfl, rfl, timestamppb.AsTime_New q.Timestamp hn⟩, h2⟩

/-- C18 at the request and quote of the handler tests. -/
theorem C18_quote_to_response_witness :
    ((NewRatesHandler examples.okService examples.clock "1.0.0").GetRates
        context.Background ⟨"usdtrub"⟩ examples.hw0).2.calls
      = [Call.GetRates context.Background "usdtrub"] ∧
    ((NewRatesHandler examples.okService examples.clock "1.0.0").GetRates
        context.Background ⟨"usdtrub"⟩ examples.hw0).1
      = service.Outcome.returned
          (some ⟨"95.5", "95.3", some ⟨1700000000, 0⟩, "usdtrub"⟩, none) :=
  ⟨(C18_quote_to_response (NewRatesHandler examples.okService examples.clock "1.0.0")
      context.Background ⟨"usdtrub"⟩ examples.hw0 examples.quote (by decide) rfl
      (by decide)).2, rfl⟩

/-- C19: `RatesHandler.Healthcheck` always returns a response and a nil
error; the Status is `healthy` exactly when the service's `HealthCheck`
returned nil and `unhealthy` exactly when it returned an error, and the
Version is the version string the handler was constructed with. -/
theorem C19_Healthcheck_never_fails {σ : Type} (svc : RatesService σ)
    (now : σ → time.Time × σ) (version : String)
    (ctx : context.Context) (req : pb.HealthcheckRequest) (w : World σ) :
    ∃ resp, ((NewRatesHandler svc now version).Healthcheck ctx req w).1 = (some resp, none) ∧
      (resp.Status = "healthy" ↔ (svc.HealthCheck ctx w.svc).1 = none) ∧
      (resp.Status = "unhealthy" ↔ (svc.HealthCheck ctx w.svc).1 ≠ none) ∧
      resp.Version = version := by
  refine ⟨_, RatesHandler.Healthcheck_result (NewRatesHandler svc now version) ctx req w,
    ?_, ?_, rfl⟩
  · by_cases hc : (svc.HealthCheck ctx w.svc).1 = none
    · simp [NewRatesHandler, hc]
    · simp [NewRatesHandler, hc]
  · by_cases hc : (svc.HealthCheck ctx w.svc).1 = none
    · simp [NewRatesHandler, hc]
    · simp [NewRatesHandler, hc]

/-- C20: with the handler wired to the rates service, the Healthcheck RPC
always returns a response and a nil error; its Status is `unhealthy` if and
only if `Repository.Ping` returns an error and `healthy` if and only if
`Ping` succeeds, for every source and so for every outcome of the source
probe. -/
theorem C20_wired_Healthcheck_follows_Ping {σ : Type}
    (grinexClient : service.GrinexClient σ) (repo : service.Repository σ)
    (now : σ → time.Time × σ) (version : String)
    (ctx : context.Context) (req : pb.HealthcheckRequest) (w : World (service.World σ)) :
    ∃ resp, ((server.wire grinexClient repo now version).Healthcheck ctx req w).1
        = (some resp, none) ∧
      (resp.Status = "unhealthy" ↔ (repo.Ping ctx w.svc.ext).1 ≠ none) ∧
      (resp.Status = "healthy" ↔ (repo.Ping ctx w.svc.ext).1 = none) := by
  refine ⟨_, RatesHandler.Healthcheck_result (server.wire grinexClient repo now version)
    ctx req w, ?_, ?_⟩
  · simp only [server.wire, NewRatesHandler, server.asHandlerService,
      service.RatesService.HealthCheck_result, service.NewRatesService]
    cases hp : (repo.Ping ctx w.svc.ext).1 <;> simp
  · simp only [server.wire, NewRatesHandler, server.asHandlerService,
      service.RatesService.HealthCheck_result, service.NewRatesService]
    cases hp : (repo.Ping ctx w.svc.ext).1 <;> simp

end HandlerClaims

/-! ## The request the client sends -/

namespace url

end url

namespace client

end client

namespace http

end http

section RequestClaims

open client

end RequestClaims

/-! ## The service over the real client -/

section WiredClaims

open service

/-- C21: with the rates service wired to the real Grinex client, when the
fetch for market `m` goes through with a status-200 response decoded to `d`
whose first ask price `a` and first bid price `b` are non-empty and whose
timestamp `t` is positive, `RatesService.GetRates` returns the quote
`(a, b, floor (t / 1000) s, m)` with a nil error for every repository
(whether `SaveRate` succeeds or fails), makes the source call and then one
`SaveRate` call with exactly the values `m, a, b, floor (t / 1000) s`. -/
theorem C21_wired_GetRates_scenario {τ : Type} (rt : client.Runtime τ)
    (c : client.GrinexClient) (repo : Repository (client.World τ))
    (now : client.World τ → time.Time × client.World τ)
    (ctx : context.Context) (m : String) (w : World (client.World τ))
    (resp : http.Response) (d : client.DepthResponse)
    (oa ob : client.OrderBook) (ra rb : List client.OrderBook)
    (hf : client.Fetches rt c ctx m w.ext resp d)
    (ha : d.Asks = oa :: ra) (hap : oa.Price ≠ "")
    (hb : d.Bids = ob :: rb) (hbp : ob.Price ≠ "")
    (ht : 0 < d.Timestamp) :
    ((NewRatesService (server.asSource rt c) repo now).GetRates ctx m w).1
      = Outcome.returned
          (some ⟨oa.Price, ob.Price, ⟨⌊(d.Timestamp : ℚ) / 1000⌋, 0⟩, m⟩, none) ∧
    ((NewRatesService (server.asSource rt c) repo now).GetRates ctx m w).2.calls
      = w.calls ++ [Call.GrinexGetRates ctx m,
          Call.SaveRate ctx m oa.Price ob.Price ⟨⌊(d.Timestamp : ℚ) / 1000⌋, 0⟩] := by
  have hfloor : ⌊(d.Timestamp : ℚ) / 1000⌋ = d.Timestamp / 1000 := by
    simpa using Rat.floor_intCast_div_natCast d.Timestamp 1000
  have hq := client.GrinexClient.GetRates_of_fetches rt c ctx m w.ext resp d hf
  simp only [ha, hb, client.select_cons, if_neg hap, if_neg hbp, if_pos ht, time.Unix,
    Int.tdiv_eq_ediv (le_of_lt ht) (by decide : (0 : Int) ≤ 1000), ← hfloor] at hq
  obtain ⟨h1, h2, _⟩ := RatesService.GetRates_of_quote
    (NewRatesService (server.asSource rt c) repo now) ctx m w _ hq
  exact ⟨h1, h2⟩

/-- C21 at the scenario of the spec, once with a store that saves and once
with a store that fails. -/
theorem C21_wired_GetRates_scenario_witness :
    ((NewRatesService (server.asSource (examples.exchange examples.depthFull) examples.grinex)
        (examples.storeOver none) examples.clientClock).GetRates
        context.Background "usdtrub" examples.sw0).1
      = Outcome.returned (some ⟨"95.5", "95.3", ⟨1700000000, 0⟩, "usdtrub"⟩, none) ∧
    ((NewRatesService (server.asSource (examples.exchange examples.depthFull) examples.grinex)
        (examples.storeOver (some (GoError.leaf "DB error"))) examples.clientClock).GetRates
        context.Background "usdtrub" examples.sw0).1
      = Outcome.returned (some ⟨"95.5", "95.3", ⟨1700000000, 0⟩, "usdtrub"⟩, none) ∧
    ((NewRatesService (server.asSource (examples.exchange examples.depthFull) examples.grinex)
        (examples.storeOver (some (GoError.leaf "DB error"))) examples.clientClock).GetRates
        context.Background "usdtrub" examples.sw0).2.calls
      = [Call.GrinexGetRates context.Background "usdtrub",
          Call.SaveRate context.Background "usdtrub" "95.5" "95.3" ⟨1700000000, 0⟩] :=
  ⟨rfl, rfl,
   ((C21_wired_GetRates_scenario (examples.exchange examples.depthFull) examples.grinex
      (examples.storeOver (some (GoError.leaf "DB error"))) examples.clientClock
      context.Background "usdtrub" examples.sw0 examples.resp200 examples.depthFull
      (examples.order "95.5") (examples.order "95.3") [] []
      ⟨rfl, rfl, rfl, rfl⟩ rfl (by decide) rfl (by decide) (by decide)).2).trans
     (by
      have hfl : ⌊((1700000000000 : Int) : ℚ) / 1000⌋ = 1700000000 := by
        rw [show ((1700000000000 : Int) : ℚ) / 1000 = ((1700000000 : Int) : ℚ) by norm_num]
        exact Int.floor_intCast _
      simp only [examples.depthFull, examples.order, examples.sw0, hfl, List.nil_append])⟩

end WiredClaims

/-! ## The health check: calls and deadline -/

namespace time

/-- Adding a duration adds its nanoseconds. -/
theorem Time.UnixNano_Add (t : Time) (d : Duration) :
    (t.Add d).UnixNano = t.UnixNano + d := by
  simp only [Time.Add, Time.UnixNano]
  have hnn : 0 ≤ (t.sec * 1000000000 + (t.nsec : Int) + d) % 1000000000 :=
    Int.emod_nonneg _ (by decide)
  rw [Int.toNat_of_nonneg hnn]
  exact Int.ediv_add_emod' _ _

end time

namespace context

/-- The deadline of `WithTimeout(parent, timeout)`: there is one, it is no
later than `timeout` after the clock reading and no later than the deadline
of the parent. -/
theorem WithTimeout_deadline (parent : Context) (timeout : time.Duration) (now : time.Time) :
    ∃ dl, (WithTimeout parent timeout now).deadline = some dl ∧
      dl.UnixNano ≤ now.UnixNano + timeout ∧
      (∀ p, parent.deadline = some p → dl.UnixNano ≤ p.UnixNano) := by
  unfold WithTimeout WithDeadline
  cases hd : parent.deadline with
  | none =>
    exact ⟨now.Add timeout, rfl, le_of_eq (time.Time.UnixNano_Add now timeout),
      fun p hp => by cases hp⟩
  | some cur =>
    by_cases hb : cur.Before (now.Add timeout) = true
    · have hlt : cur.UnixNano < (now.Add timeout).UnixNano := by
        simpa [time.Time.Before] using hb
      rw [time.Time.UnixNano_Add] at hlt
      refine ⟨cur, by simp [hb, hd], le_of_lt hlt, ?_⟩
      intro p hp
      cases hp
      exact le_refl _
    · have hge : (now.Add timeout).UnixNano ≤ cur.UnixNano := by
        simpa [time.Time.Before] using hb
      refine ⟨now.Add timeout, by simp [hb], le_of_eq (time.Time.UnixNano_Add now timeout), ?_⟩
      intro p hp
      cases hp
      exact hge

end context

namespace service

/-- The calls of `HealthCheck` when `Ping` fails: the `Ping` call alone. -/
theorem RatesService.HealthCheck_calls_of_error {σ : Type} (s : RatesService σ)
    (ctx : context.Context) (w : World σ) (e : GoError)
    (hp : (s.repository.Ping ctx w.ext).1 = some e) :
    (s.HealthCheck ctx w).2.calls = w.calls ++ [Call.Ping ctx] := by
  simp only [RatesService.HealthCheck, World.log_ext, hp]
  rfl

/-- The calls of `HealthCheck` when `Ping` succeeds: the `Ping` call, then the
source probe for `usdtrub` under the context `WithTimeout(ctx, 5s)` built
from the clock reading taken after `Ping`. -/
theorem RatesService.HealthCheck_calls_of_ok {σ : Type} (s : RatesService σ)
    (ctx : context.Context) (w : World σ)
    (hp : (s.repository.Ping ctx w.ext).1 = none) :
    (s.HealthCheck ctx w).2.calls = w.calls ++
      [Call.Ping ctx,
       Call.GrinexGetRates
        (context.WithTimeout ctx (5 * time.Second)
          (s.Now (s.repository.Ping ctx w.ext).2).1) "usdtrub"] := by
  simp only [RatesService.HealthCheck, World.log_ext, hp]
  simp only [World.called, World.log]
  split <;> simp

/-- The calls of `GetLatestRate`. -/
theorem RatesService.GetLatestRate_calls {σ : Type} (s : RatesService σ)
    (ctx : context.Context) (market : String) (w : World σ) :
    (s.GetLatestRate ctx market w).2.calls = w.calls ++ [Call.RepoGetLatestRate ctx market] := by
  simp only [RatesService.GetLatestRate, World.log_ext]
  cases (s.repository.GetLatestRate ctx market w.ext).1.2 <;> rfl

/-- The calls of `GetRatesHistory`. -/
theorem RatesService.GetRatesHistory_calls {σ : Type} (s : RatesService σ)
    (ctx : context.Context) (market : String) (limit offset : Int) (w : World σ) :
    (s.GetRatesHistory ctx market limit offset w).2.calls
      = w.calls ++ [Call.RepoGetRates ctx market limit offset] := by
  simp only [RatesService.GetRatesHistory, World.log_ext]
  cases (s.repository.GetRates ctx market limit offset w.ext).1.2 <;> rfl

/-- A call that is one of two calls neither of which is a `SaveRate` call is
no `SaveRate` call. -/
theorem Call.isSaveRate_of_mem_pair (a b c : Call) (ha : a.isSaveRate = false)
    (hb : b.isSaveRate = false) (hc : c ∈ [a, b]) : c.isSaveRate = false := by
  simp only [List.mem_cons, List.mem_singleton, List.not_mem_nil, or_false] at hc
  rcases hc with h | h <;> subst h <;> assumption

end service

section HealthCheckClaims

open service

/-- C24: `RatesService.HealthCheck` calls `Repository.Ping` first, with the
caller's context; if `Ping` fails that is its only call, the source is not
called; if `Ping` succeeds the only further call is one call of the source's
`GetRates`, with the market `usdtrub`, whatever source (and whatever market
it is configured with) the service was built over. -/
theorem C24_HealthCheck_call_sequence {σ : Type} (s : RatesService σ)
    (ctx : context.Context) (w : World σ) :
    ((s.repository.Ping ctx w.ext).1 ≠ none →
      (s.HealthCheck ctx w).2.calls = w.calls ++ [Call.Ping ctx] ∧
      (((s.HealthCheck ctx w).2.calls).drop w.calls.length).countP Call.isGrinexGetRates = 0) ∧
    ((s.repository.Ping ctx w.ext).1 = none →
      (∃ ctx5, (s.HealthCheck ctx w).2.calls
        = w.calls ++ [Call.Ping ctx, Call.GrinexGetRates ctx5 "usdtrub"]) ∧
      (((s.HealthCheck ctx w).2.calls).drop w.calls.length).countP Call.isGrinexGetRates = 1) := by
  constructor
  · intro hp
    obtain ⟨e, he⟩ := Option.ne_none_iff_exists'.mp hp
    have hc := RatesService.HealthCheck_calls_of_error s ctx w e he
    refine ⟨hc, ?_⟩
    rw [hc, List.drop_left]
    rfl
  · intro hp
    have hc := RatesService.HealthCheck_calls_of_ok s ctx w hp
    refine ⟨⟨_, hc⟩, ?_⟩
    rw [hc, List.drop_left]
    rfl

/-- C25: when `Ping` succeeds, the context `RatesService.HealthCheck` passes
to the source probe has a deadline, no later than 5 seconds after the clock
reading taken just before the probe and no later than the deadline of the
caller's context if it has one, for every source (whatever its own timeout);
the `Ping` call receives the caller's context itself. -/
theorem C25_probe_deadline_within_5s {σ : Type} (s : RatesService σ)
    (ctx : context.Context) (w : World σ)
    (hp : (s.repository.Ping ctx w.ext).1 = none) :
    ∃ ctx5 dl, (s.HealthCheck ctx w).2.calls
        = w.calls ++ [Call.Ping ctx, Call.GrinexGetRates ctx5 "usdtrub"] ∧
      ctx5.deadline = some dl ∧
      dl.UnixNano ≤ (s.Now (s.repository.Ping ctx w.ext).2).1.UnixNano + 5000000000 ∧
      (∀ p, ctx.deadline = some p → dl.UnixNano ≤ p.UnixNano) := by
  obtain ⟨dl, h1, h2, h3⟩ := context.WithTimeout_deadline ctx (5 * time.Second)
    (s.Now (s.repository.Ping ctx w.ext).2).1
  exact ⟨_, dl, RatesService.HealthCheck_calls_of_ok s ctx w hp, h1, h2, h3⟩

/-- C25 for a caller without a deadline: the clock shows 1700000001 s when the
probe starts and the deadline of the probe is 1700000006 s, while `Ping` got
the caller's context. -/
theorem C25_probe_deadline_within_5s_witness :
    ((NewRatesService examples.okSource examples.okRepo examples.clock).HealthCheck
        context.Background examples.w0).2.calls
      = [Call.Ping context.Background,
         Call.GrinexGetRates ⟨some ⟨1700000006, 0⟩⟩ "usdtrub"] ∧
    ∃ ctx5 dl, ((NewRatesService examples.okSource examples.okRepo examples.clock).HealthCheck
        examples.ctxSoon examples.w0).2.calls
        = [] ++ [Call.Ping examples.ctxSoon, Call.GrinexGetRates ctx5 "usdtrub"] ∧
      ctx5.deadline = some dl ∧
      dl.UnixNano ≤ (1700000001 : Int) * 1000000000 + 5000000000 :=
  ⟨by decide,
   (C25_probe_deadline_within_5s
      (NewRatesService examples.okSource examples.okRepo examples.clock)
      examples.ctxSoon examples.w0 rfl).imp
    (fun _ hq => hq.imp (fun _ hd => ⟨hd.1, hd.2.1, hd.2.2.1⟩))⟩

/-- C26: every error returned by `RatesService.GetRates`, `GetLatestRate`,
`GetRatesHistory` and `HealthCheck` wraps the error `e` returned by the
collaborator call that failed (the source's `GetRates`, the repository's
`GetLatestRate`, `GetRates` and `Ping`): it unwraps to `e` and its message
is a fixed context followed by the message of `e`. -/
theorem C26_errors_wrap_cause {σ : Type} (s : RatesService σ)
    (ctx : context.Context) (market : String) (limit offset : Int) (w : World σ) :
    (∀ x err, (s.GetRates ctx market w).1 = Outcome.returned (x, some err) →
      ∃ e, (s.grinexClient.GetRates ctx market w.ext).1.2 = some e ∧
        err.Unwrap = some e ∧
        err.Error = "failed to get rates from Grinex: " ++ e.Error) ∧
    (∀ err, (s.GetLatestRate ctx market w).1.2 = some err →
      ∃ e, (s.repository.GetLatestRate ctx market w.ext).1.2 = some e ∧
        err.Unwrap = some e ∧
        err.Error = "failed to get latest rate: " ++ e.Error) ∧
    (∀ err, (s.GetRatesHistory ctx market limit offset w).1.2 = some err →
      ∃ e, (s.repository.GetRates ctx market limit offset w.ext).1.2 = some e ∧
        err.Unwrap = some e ∧
        err.Error = "failed to get rates history: " ++ e.Error) ∧
    (∀ err, (s.HealthCheck ctx w).1 = some err →
      ∃ e, (s.repository.Ping ctx w.ext).1 = some e ∧
        err.Unwrap = some e ∧
        err.Error = "database health check failed: " ++ e.Error) := by
  refine ⟨?_, ?_, ?_, ?_⟩
  · intro x err h
    rcases hg : (s.grinexClient.GetRates ctx market w.ext).1 with ⟨q, oe⟩
    cases oe with
    | some e =>
      have he : (s.grinexClient.GetRates ctx market w.ext).1.2 = some e := by rw [hg]
      rw [(RatesService.GetRates_of_error s ctx market w e he).1] at h
      simp only [Outcome.returned.injEq, Prod.mk.injEq, Option.some.injEq] at h
      exact ⟨e, rfl, by rw [← h.2]; rfl, by rw [← h.2]; rfl⟩
    | none =>
      cases q with
      | some q =>
        rw [(RatesService.GetRates_of_quote s ctx market w q hg).1] at h
        simp at h
      | none =>
        simp only [RatesService.GetRates, World.log_ext, hg] at h
        cases h
  · intro err h
    simp only [RatesService.GetLatestRate, World.log_ext] at h
    cases he : (s.repository.GetLatestRate ctx market w.ext).1.2 with
    | none => simp [he] at h
    | some e =>
      simp only [he, Option.some.injEq] at h
      exact ⟨e, rfl, by rw [← h]; rfl, by rw [← h]; rfl⟩
  · intro err h
    simp only [RatesService.GetRatesHistory, World.log_ext] at h
    cases he : (s.repository.GetRates ctx market limit offset w.ext).1.2 with
    | none => simp [he] at h
    | some e =>
      simp only [he, Option.some.injEq] at h
      exact ⟨e, rfl, by rw [← h]; rfl, by rw [← h]; rfl⟩
  · intro err h
    rw [RatesService.HealthCheck_result] at h
    cases he : (s.repository.Ping ctx w.ext).1 with
    | none => simp [he] at h
    | some e =>
      simp only [he, Option.map_some', Option.some.injEq] at h
      exact ⟨e, rfl, by rw [← h]; rfl, by rw [← h]; rfl⟩

/-- C27: `RatesService.HealthCheck`, `GetLatestRate` and `GetRatesHistory`
never call `Repository.SaveRate`: none of the calls they make, for every
repository and every source, is a `SaveRate` call. -/
theorem C27_only_GetRates_saves {σ : Type} (s : RatesService σ)
    (ctx : context.Context) (market : String) (limit offset : Int) (w : World σ) :
    (∀ c ∈ ((s.HealthCheck ctx w).2.calls).drop w.calls.length, c.isSaveRate = false) ∧
    (∀ c ∈ ((s.GetLatestRate ctx market w).2.calls).drop w.calls.length,
      c.isSaveRate = false) ∧
    (∀ c ∈ ((s.GetRatesHistory ctx market limit offset w).2.calls).drop w.calls.length,
      c.isSaveRate = false) := by
  refine ⟨?_, ?_, ?_⟩
  · cases hp : (s.repository.Ping ctx w.ext).1 with
    | some e =>
      rw [RatesService.HealthCheck_calls_of_error s ctx w e hp, List.drop_left]
      intro c hc
      rw [List.mem_singleton] at hc
      subst hc
      rfl
    | none =>
      rw [RatesService.HealthCheck_calls_of_ok s ctx w hp, List.drop_left]
      intro c hc
      exact Call.isSaveRate_of_mem_pair (Call.Ping ctx)
        (Call.GrinexGetRates (context.WithTimeout ctx (5 * time.Second)
          (s.Now (s.repository.Ping ctx w.ext).2).1) "usdtrub") c rfl rfl hc
  · rw [RatesService.GetLatestRate_calls, List.drop_left]
    intro c hc
    rw [List.mem_singleton] at hc
    subst hc
    rfl
  · rw [RatesService.GetRatesHistory_calls, List.drop_left]
    intro c hc
    rw [List.mem_singleton] at hc
    subst hc
    rfl

end HealthCheckClaims

/-! ## The connection string -/

section ConfigClaims

open config

/-- C28: `DatabaseConfig.DatabaseDSN` does not depend on the `SSLMode` field:
two configs with the same Host, Port, User, Password and Database have the
same connection string, replacing `SSLMode` by any value changes nothing, the
string always contains `sslmode=disable`, and it is made of Host, Port, User,
Password and Database, each as it is, in the order host, port, user,
password, dbname.  For the defaults with `SSLMode = "require"` the string
still says `sslmode=disable`. -/
theorem C28_DSN_ignores_SSLMode (c c' : DatabaseConfig) (mode : String) :
    (c.Host = c'.Host → c.Port = c'.Port → c.User = c'.User →
      c.Password = c'.Password → c.Database = c'.Database →
      c.DatabaseDSN = c'.DatabaseDSN) ∧
    DatabaseConfig.DatabaseDSN { c with SSLMode := mode } = c.DatabaseDSN ∧
    (∃ before after, c.DatabaseDSN = before ++ "sslmode=disable" ++ after) ∧
    c.DatabaseDSN = "host=" ++ c.Host ++ " port=" ++ toString c.Port ++ " user=" ++ c.User
      ++ " password=" ++ c.Password ++ " dbname=" ++ c.Database
      ++ " sslmode=disable connect_timeout=10" ∧
    examples.dbConfig.SSLMode = "require" ∧
    examples.dbConfig.DatabaseDSN = "host=localhost port=5432 user=postgres " ++
      "password=postgres dbname=usdt_rates sslmode=disable connect_timeout=10" := by
  refine ⟨?_, rfl, ?_, rfl, rfl, by decide⟩
  · intro h1 h2 h3 h4 h5
    simp only [DatabaseConfig.DatabaseDSN, h1, h2, h3, h4, h5]
  · refine ⟨"host=" ++ c.Host ++ " port=" ++ toString c.Port ++ " user=" ++ c.User
      ++ " password=" ++ c.Password ++ " dbname=" ++ c.Database ++ " ",
      " connect_timeout=10", ?_⟩
    have hlit : " sslmode=disable connect_timeout=10"
        = " " ++ ("sslmode=disable" ++ " connect_timeout=10") := by decide
    simp only [DatabaseConfig.DatabaseDSN, hlit, String.append_assoc]

end ConfigClaims

/-! ## The repository over PostgreSQL -/

namespace postgres

/-- Logging leaves the database alone. -/
theorem World.log_db {δ : Type} (w : World δ) (level : Level) (msg : String) :
    (w.log level msg).db = w.db := rfl

/-- The run of `GetRates` when the query fails. -/
theorem Repository.GetRates_of_query_error {δ : Type} (db : sql.DB δ)
    (ctx : context.Context) (market : String) (limit offset : Int) (w : World δ)
    (e : GoError)
    (h : (db.QueryContext ctx getRatesQuery
      [sql.Value.str market, sql.Value.num limit, sql.Value.num offset] w.db).1 = .error e) :
    ((NewRepository db).GetRates ctx market limit offset w).1
      = ([], some (fmt.Errorf_w "failed to query rates: " e)) := by
  simp only [Repository.GetRates, NewRepository, World.log_db, h]

/-- The run of `GetLatestRate` by what `QueryRowContext` finds. -/
theorem Repository.GetLatestRate_of_row {δ : Type} (db : sql.DB δ) (ctx : context.Context)
    (market : String) (w : World δ) :
    ((NewRepository db).GetLatestRate ctx market w).1 =
      match (db.QueryRowContext ctx getLatestRateQuery [sql.Value.str market] w.db).1 with
      | sql.Row.noRows => (none, none)
      | sql.Row.failed err => (none, some (fmt.Errorf_w "failed to query latest rate: " err))
      | sql.Row.columns cols =>
        match Rate.Scan db.FormatTime cols with
        | .error err => (none, some (fmt.Errorf_w "failed to query latest rate: " err))
        | .ok rate => (some rate, none) := by
  simp only [Repository.GetLatestRate, NewRepository, World.log_db]
  cases (db.QueryRowContext ctx getLatestRateQuery [sql.Value.str market] w.db).1 with
  | noRows => rfl
  | failed err => rfl
  | columns cols =>
    simp only
    cases Rate.Scan db.FormatTime cols <;> rfl

end postgres

namespace pg

/-- The text of the statement of `GetRates` reads as `getRatesSelect`. -/
theorem parse_getRatesQuery : parseSelect postgres.getRatesQuery = some getRatesSelect := by
  decide

/-- The text of the statement of `GetLatestRate` reads as
`getLatestRateSelect`. -/
theorem parse_getLatestRateQuery :
    parseSelect postgres.getLatestRateQuery = some getLatestRateSelect := by
  decide

/-- The select list of both statements gives the six columns of a row. -/
theorem projectAll_columns (rs : List postgres.Rate) :
    projectAll getRatesSelect.columns rs = some (rs.map columns) := by
  induction rs with
  | nil => rfl
  | cons r rs ih =>
    have hr : project getRatesSelect.columns r = some (columns r) := rfl
    simp only [projectAll, hr, ih, List.map_cons]

/-- The rows both statements select and arrange: the rows of the market,
newest first. -/
theorem arrange_filter (st : State) (market : String) :
    arrange (comesFirst getRatesSelect)
      (st.rates.filter (fun r => column r getRatesSelect.whereColumn
        = some (sql.Value.str market)))
      = selected st market := by
  have hc : comesFirst getRatesSelect = fun a b => decide (newerFirst a b) := rfl
  have hf : ∀ r : postgres.Rate,
      decide (column r getRatesSelect.whereColumn = some (sql.Value.str market))
        = decide (r.Market = market) := by
    intro r
    have hcol : column r getRatesSelect.whereColumn = some (sql.Value.str r.Market) := rfl
    rw [hcol]
    simp
  unfold selected
  rw [hc]
  congr 1
  exact List.filter_congr (fun r _ => hf r)

/-- PostgreSQL executing the statement of `GetRates`: a negative limit or
offset is an error; otherwise the answer is the rows of the market, newest
first, `offset` of them skipped and at most `limit` kept. -/
theorem run_getRates (market : String) (limit offset : Int) (st : State) :
    run getRatesSelect [sql.Value.str market, sql.Value.num limit, sql.Value.num offset] st =
      if limit < 0 then .error (GoError.leaf "pq: LIMIT must not be negative")
      else if offset < 0 then .error (GoError.leaf "pq: OFFSET must not be negative")
      else .ok ((((selected st market).drop offset.toNat).take limit.toNat).map columns) := by
  have ha : argument [sql.Value.str market, sql.Value.num limit, sql.Value.num offset]
      getRatesSelect.whereParam = some (sql.Value.str market) := rfl
  have hl : rowCount [sql.Value.str market, sql.Value.num limit, sql.Value.num offset]
      "LIMIT" getRatesSelect.limit =
      if limit < 0 then .error (GoError.leaf "pq: LIMIT must not be negative")
      else .ok limit.toNat := rfl
  have ho : rowCount [sql.Value.str market, sql.Value.num limit, sql.Value.num offset]
      "OFFSET" (Count.param 3) =
      if offset < 0 then .error (GoError.leaf "pq: OFFSET must not be negative")
      else .ok offset.toNat := rfl
  have hoff : getRatesSelect.offset = some (Count.param 3) := rfl
  unfold run
  rw [if_neg (by decide), if_neg (by decide)]
  simp only [ha, hl, hoff, ho, arrange_filter, projectAll_columns]
  by_cases h1 : limit < 0
  · simp only [if_pos h1]
  · by_cases h2 : offset < 0
    · simp only [if_neg h1, if_pos h2]
    · simp only [if_neg h1, if_neg h2]

/-- PostgreSQL executing the statement of `GetLatestRate`: the answer is the
first of the rows of the market, newest first, if there is one. -/
theorem run_getLatestRate (market : String) (st : State) :
    run getLatestRateSelect [sql.Value.str market] st
      = .ok (((selected st market).take 1).map columns) := by
  have ha : argument [sql.Value.str market] getLatestRateSelect.whereParam
      = some (sql.Value.str market) := rfl
  have hl : rowCount [sql.Value.str market] "LIMIT" getLatestRateSelect.limit = .ok 1 := rfl
  have hoff : getLatestRateSelect.offset = none := rfl
  have harr := arrange_filter st market
  have hproj := projectAll_columns ((selected st market).take 1)
  unfold run
  rw [if_neg (by decide), if_neg (by decide)]
  simp only [ha, hl, hoff, List.drop_zero]
  exact (by
    have e1 : arrange (comesFirst getLatestRateSelect)
        (st.rates.filter (fun r => column r getLatestRateSelect.whereColumn
          = some (sql.Value.str market))) = selected st market := harr
    have e2 : projectAll getLatestRateSelect.columns ((selected st market).take 1)
        = some (((selected st market).take 1).map columns) := hproj
    rw [e1, e2])

/-- What PostgreSQL answers to the query of `GetRates`. -/
theorem engine_QueryContext
    (exec : String → List sql.Value → State → Option GoError × State)
    (format : time.Time → String)
    (ctx : context.Context) (market : String) (limit offset : Int) (st : State) :
    ((engine exec format).QueryContext ctx postgres.getRatesQuery
      [sql.Value.str market, sql.Value.num limit, sql.Value.num offset] st).1 =
      match st.down with
      | some err => .error err
      | none =>
        if limit < 0 then .error (GoError.leaf "pq: LIMIT must not be negative")
        else if offset < 0 then .error (GoError.leaf "pq: OFFSET must not be negative")
        else .ok ⟨(((selected st market).drop offset.toNat).take limit.toNat).map
          columns, none⟩ := by
  simp only [engine]
  cases st.down with
  | some err => rfl
  | none =>
    simp only [parse_getRatesQuery, run_getRates]
    by_cases hl : limit < 0
    · simp only [if_pos hl]
    · by_cases ho : offset < 0
      · simp only [if_neg hl, if_pos ho]
      · simp only [if_neg hl, if_neg ho]

/-- What PostgreSQL answers to the query of `GetLatestRate`. -/
theorem engine_QueryRowContext
    (exec : String → List sql.Value → State → Option GoError × State)
    (format : time.Time → String)
    (ctx : context.Context) (market : String) (st : State) :
    ((engine exec format).QueryRowContext ctx postgres.getLatestRateQuery
      [sql.Value.str market] st).1 =
      match st.down with
      | some err => sql.Row.failed err
      | none =>
        match selected st market with
        | [] => sql.Row.noRows
        | r :: _ => sql.Row.columns (columns r) := by
  simp only [engine]
  cases st.down with
  | some err => rfl
  | none =>
    simp only [parse_getLatestRateQuery, run_getLatestRate]
    cases selected st market <;> rfl

/-- The rows selected are the rows of the market in the table, rearranged. -/
theorem selected_perm (st : State) (market : String) :
    (selected st market).Perm (st.rates.filter (fun r => r.Market = market)) :=
  List.perm_insertionSort _ _

/-- A market without rows selects nothing. -/
theorem selected_of_no_rows (st : State) (market : String)
    (h : ∀ r ∈ st.rates, r.Market ≠ market) : selected st market = [] := by
  have hf : st.rates.filter (fun r => r.Market = market) = [] := by
    rw [List.filter_eq_nil_iff]
    intro r hr
    simpa using h r hr
  have hp := selected_perm st market
  rw [hf] at hp
  exact List.Perm.eq_nil hp

/-- The run of `GetRates` over PostgreSQL on a live connection with a negative
limit: no rows and the wrapped error of the database. -/
theorem engine_GetRates_negative_limit
    (exec : String → List sql.Value → State → Option GoError × State)
    (format : time.Time → String)
    (ctx : context.Context) (market : String) (limit offset : Int)
    (w : postgres.World State) (hup : w.db.down = none) (hl : limit < 0) :
    ((postgres.NewRepository (engine exec format)).GetRates ctx market limit offset w).1
      = ([], some (fmt.Errorf_w "failed to query rates: "
          (GoError.leaf "pq: LIMIT must not be negative"))) := by
  apply postgres.Repository.GetRates_of_query_error
  rw [engine_QueryContext, hup]
  simp only [if_pos hl]

end pg

section RepositoryClaims

open postgres

/-- C22: over PostgreSQL on a live connection, for a market with no stored
row `Repository.GetLatestRate` returns the absent result, a nil rate with a
nil error; when the connection is down it returns a nil rate and the wrapped
error instead.  For every database handle: when `Scan` finds no row
(`sql.ErrNoRows`) the result is (nil, nil), and when the query fails with any
other error `e` the result is (nil, the wrapped `e`). -/
theorem C22_GetLatestRate_absent_not_error
    (exec : String → List sql.Value → pg.State → Option GoError × pg.State)
    (format : time.Time → String)
    (ctx : context.Context) (market : String) (w : World pg.State) :
    (w.db.down = none → (∀ r ∈ w.db.rates, r.Market ≠ market) →
      ((NewRepository (pg.engine exec format)).GetLatestRate ctx market w).1 = (none, none)) ∧
    (∀ e, w.db.down = some e →
      ((NewRepository (pg.engine exec format)).GetLatestRate ctx market w).1
        = (none, some (fmt.Errorf_w "failed to query latest rate: " e))) ∧
    (∀ (δ : Type) (db : sql.DB δ) (v : World δ),
      ((db.QueryRowContext ctx getLatestRateQuery [sql.Value.str market] v.db).1
          = sql.Row.noRows →
        ((NewRepository db).GetLatestRate ctx market v).1 = (none, none)) ∧
      (∀ e, (db.QueryRowContext ctx getLatestRateQuery [sql.Value.str market] v.db).1
          = sql.Row.failed e →
        ((NewRepository db).GetLatestRate ctx market v).1
          = (none, some (fmt.Errorf_w "failed to query latest rate: " e)))) := by
  refine ⟨?_, ?_, ?_⟩
  · intro hup hno
    rw [Repository.GetLatestRate_of_row, pg.engine_QueryRowContext, hup,
      pg.selected_of_no_rows w.db market hno]
  · intro e hdown
    rw [Repository.GetLatestRate_of_row, pg.engine_QueryRowContext, hdown]
  · intro δ db v
    constructor
    · intro h
      rw [Repository.GetLatestRate_of_row, h]
    · intro e h
      rw [Repository.GetLatestRate_of_row, h]

/-- C22 on the example database: the market `ethusd` has no row and the
result is absent; with the connection down the result is an error. -/
theorem C22_GetLatestRate_absent_not_error_witness :
    (examples.pgRepo.GetLatestRate context.Background "ethusd" ⟨[], examples.pgState⟩).1
      = (none, none) ∧
    (examples.pgRepo.GetLatestRate context.Background "ethusd" ⟨[], examples.pgDown⟩).1
      = (none, some (GoError.wrap "failed to query latest rate: connection refused"
          (GoError.leaf "connection refused"))) :=
  ⟨(C22_GetLatestRate_absent_not_error examples.readOnly examples.unixText
      context.Background "ethusd" ⟨[], examples.pgState⟩).1 rfl (by decide),
   (C22_GetLatestRate_absent_not_error examples.readOnly examples.unixText
      context.Background "ethusd" ⟨[], examples.pgDown⟩).2.1 _ rfl⟩

end RepositoryClaims

end TestForWork
